import Mathlib

/-!
Verification of the streaming transfer engine of the `hackrf.js` library
(`src/lib/interface.ts`), a host-side driver for HackRF software-defined
radios.

The development shallowly embeds the `poll` streaming engine
(`src/lib/interface.ts`, lines 52-134) and the `HackrfDevice` stream
dispatch layer (`_lockStream`, `requestStop`, `_stream`, `transmit`,
`receive`, `sweepReceive`, `cpld_write`) as an explicit state machine.

Modelling choices:
* The JavaScript runtime is single-threaded; the libusb transport delivers
  one completion callback per submitted transfer.  An execution is driven
  by a list of events, each event naming a currently pending transfer and
  its completion status.  Each event is processed atomically: the body of
  `transferCallback` followed by its `inNextTick` continuation.  Between
  any two events the environment may also deliver a `requestStop` call
  (device-level runs).  This is faithful for the properties considered
  here because `transferCallback` only reads and writes the closure state,
  and the `setImmediate` queue preserves order, so the observable
  interleavings are exactly the orders in which completions are processed.
* Transfers are identified by natural numbers.  Buffer contents are not
  modelled: no property below depends on the bytes.
* Promise settlement is modelled by the `outcome` field: `none` while the
  promise returned by `poll` is unsettled, `some r` once it resolves
  (`Except.ok`) or rejects (`Except.error`).
-/

namespace Hackrf

/-- Errors that can flow through the engine: a libusb transport error
carrying its `errno`, a `HackrfError` carrying its `ErrorCode`
(`src/unnamed/part_006`, enum `ErrorCode`), or an arbitrary exception
thrown by a user callback (identified by a number). -/
inductive Err where
  | transport (errno : Int)
  | hackrf (code : Int)
  | exception (id : Nat)
deriving DecidableEq, Repr

/-- `usb.LIBUSB_TRANSFER_CANCELLED` transfer status, reported as the
`errno` of the completion error of a cancelled transfer. -/
def LIBUSB_TRANSFER_CANCELLED : Int := 3

/-- `ErrorCode.BUSY = -6` from `src/unnamed/part_006`. -/
def busyError : Err := Err.hackrf (-6)

/-- `ErrorCode.USB_API_VERSION = -1005` from `src/unnamed/part_006`. -/
def usbApiVersionError : Err := Err.hackrf (-1005)

/-- `TransceiverMode` enum from `src/unnamed/part_006`
(`OFF = 0, RECEIVE = 1, TRANSMIT = 2, SS = 3, CPLD_UPDATE = 4,
RX_SWEEP = 5`). -/
inductive TransceiverMode where
  | off
  | receive
  | transmit
  | ss
  | cpldUpdate
  | rxSweep
deriving DecidableEq, Repr

/-- Result of one invocation of the user callback (`PollCallback`):
`cont` for `undefined`/`void` (keep streaming), `stop` for `false`,
`throws e` when the callback throws `e`. -/
inductive CbResult where
  | cont
  | stop
  | throws (e : Err)
deriving DecidableEq, Repr

/-- The closure state of one invocation of `poll`
(`src/lib/interface.ts:52-134`) plus instrumentation:
`pending` is `pendingTransfers`; `cancelled`, `settled`, `rejected`,
`reason` are the homonymous variables; `cancelIssued` records every
transfer id on which `x.cancel()` was invoked; `submitted` counts
`endpoint.makeTransfer(..).submit(..)` calls; `calls` counts invocations
of the callback passed to `poll`; `user` is the state threaded through
that callback; `outcome` is the settlement of the returned promise. -/
structure PollState (σ : Type) where
  isOut : Bool
  pending : List Nat
  cancelled : Bool
  settled : Bool
  rejected : Bool
  reason : Option Err
  cancelIssued : List Nat
  submitted : Nat
  calls : Nat
  user : σ
  outcome : Option (Except Err Unit)
deriving Repr

variable {σ : Type}

/-- `tryCancel` (`interface.ts:63-71`): if not already `cancelled`,
issue `x.cancel()` on every pending transfer (exceptions swallowed) and
set `cancelled`. -/
def tryCancel (s : PollState σ) : PollState σ :=
  if s.cancelled then s
  else { s with cancelIssued := s.cancelIssued ++ s.pending, cancelled := true }

/-- `wrapResolve` (`interface.ts:76-77`): set `settled`; for IN streams
(`!isOut`) also `tryCancel()`. -/
def wrapResolve (s : PollState σ) : PollState σ :=
  if s.isOut then { s with settled := true }
  else tryCancel { s with settled := true }

/-- `wrapReject` (`interface.ts:78-79`): set `settled`, `rejected`,
store the reason, then `tryCancel()`. -/
def wrapReject (e : Err) (s : PollState σ) : PollState σ :=
  tryCancel { s with settled := true, rejected := true, reason := some e }

/-- `doSettle` (`interface.ts:88-91`): once `settled` and no transfer is
pending, settle the promise: reject with the stored reason if `rejected`,
otherwise resolve.  (The `Err.hackrf 0` placeholder is dead: `rejected`
implies `reason` is set in every reachable state, see `Inv`.) -/
def doSettle (s : PollState σ) : PollState σ :=
  if s.settled ∧ s.pending = [] then
    let r := if s.rejected then Except.error (s.reason.getD (Err.hackrf 0)) else Except.ok ()
    { s with outcome := some r }
  else s

/-- Whether an error is a libusb completion with
`errno === LIBUSB_TRANSFER_CANCELLED` (`interface.ts:109`). -/
def isCancelErrno : Err → Bool
  | Err.transport errno => errno = LIBUSB_TRANSFER_CANCELLED
  | _ => false

/-- First statement of `transferCallback` (`interface.ts:109-110`): a
completion error is discarded (treated as benign) when cancellation was
requested and the status is `LIBUSB_TRANSFER_CANCELLED`. -/
def effectiveError (s : PollState σ) (status : Option Err) : Option Err :=
  match status with
  | none => none
  | some e => if s.cancelled ∧ isCancelErrno e then none else some e

/-- `if (!rejected && error) wrapReject(error)` (`interface.ts:111-112`). -/
def stepReject (s : PollState σ) : Option Err → PollState σ
  | some e => if s.rejected then s else wrapReject e s
  | none => s

/-- `pendingTransfers.delete(transfer)` (`interface.ts:117`). -/
def stepErase (t : Nat) (s : PollState σ) : PollState σ :=
  { s with pending := s.pending.erase t }

/-- `safeCall(() => { if (callback(...) === false) wrapResolve() })`
(`interface.ts:80-87,118-121`): skipped once `settled`; otherwise the
callback runs; returning `false` resolves, throwing rejects. -/
def stepCallback (cb : σ → CbResult × σ) (s : PollState σ) : PollState σ :=
  if s.settled then s
  else
    match cb s.user with
    | (CbResult.cont, u) => { s with user := u, calls := s.calls + 1 }
    | (CbResult.stop, u) => wrapResolve { s with user := u, calls := s.calls + 1 }
    | (CbResult.throws e, u) => wrapReject e { s with user := u, calls := s.calls + 1 }

/-- `safeCall(submitTransfer)` (`interface.ts:122`): skipped once
`settled`; otherwise the same transfer is resubmitted. -/
def stepResubmit (t : Nat) (s : PollState σ) : PollState σ :=
  if s.settled then s
  else { s with pending := t :: s.pending, submitted := s.submitted + 1 }

/-- One completion event for pending transfer `t` with completion status
`status` (`none` = success): `transferCallback` followed by its
`inNextTick` continuation (`interface.ts:108-125`).  Events naming a
transfer that is not pending cannot occur and are no-ops. -/
def transferStep (cb : σ → CbResult × σ) (s : PollState σ) (t : Nat) (status : Option Err) :
    PollState σ :=
  if t ∈ s.pending then
    doSettle (stepResubmit t (stepCallback cb (stepErase t (stepReject s (effectiveError s status)))))
  else s

/-- Outcome of the up-front fill loop for OUT streams
(`interface.ts:95-101`). -/
inductive PrefillResult (σ : Type) where
  | filled (tasks : Nat) (u : σ) (calls : Nat)
  | thrown (e : Err) (u : σ) (calls : Nat)
deriving Repr

/-- The OUT-direction pre-fill loop (`interface.ts:95-102`): call the
callback on each of the `transferCount` buffers; `false` breaks out of
the loop (buffers filled so far keep their tasks); a throw escapes the
promise executor. -/
def prefillOut (cb : σ → CbResult × σ) : Nat → σ → Nat → Nat → PrefillResult σ
  | 0, u, tasks, calls => PrefillResult.filled tasks u calls
  | n + 1, u, tasks, calls =>
    match cb u with
    | (CbResult.cont, u2) => prefillOut cb n u2 (tasks + 1) (calls + 1)
    | (CbResult.stop, u2) => PrefillResult.filled tasks u2 (calls + 1)
    | (CbResult.throws e, u2) => PrefillResult.thrown e u2 (calls + 1)

/-- The pre-fill phase of `poll`: for OUT streams run `prefillOut`, for
IN streams every buffer gets a task and the callback is not invoked
(`interface.ts:95-102`). -/
def prefill (isOut : Bool) (cb : σ → CbResult × σ) (transferCount : Nat) (u0 : σ) :
    PrefillResult σ :=
  if isOut then prefillOut cb transferCount u0 0 0
  else PrefillResult.filled transferCount u0 0

/-- Fresh closure state at entry of the `poll` promise executor. -/
def initState (isOut : Bool) (u : σ) : PollState σ :=
  { isOut := isOut, pending := [], cancelled := false, settled := false,
    rejected := false, reason := none, cancelIssued := [], submitted := 0,
    calls := 0, user := u, outcome := none }

/-- State of the `poll` closure after the synchronous executor body and
the `Promise.resolve(setup()).then(...)` continuation
(`interface.ts:93-133`), parameterised by whether `setup()` failed
(`setupResult`):
* if the pre-fill callback threw, the executor throws and the promise
  rejects with that exception (no transfer submitted, `setup` never runs);
* if `setup()` rejects, the promise is rejected with that error;
* otherwise every queued task submits its transfer and `doSettle()` runs. -/
def initPoll (isOut : Bool) (transferCount : Nat) (cb : σ → CbResult × σ) (u0 : σ)
    (setupResult : Option Err) : PollState σ :=
  match prefill isOut cb transferCount u0 with
  | PrefillResult.thrown e u calls =>
    { (initState isOut u) with calls := calls, outcome := some (Except.error e) }
  | PrefillResult.filled tasks u calls =>
    match setupResult with
    | some e => { (initState isOut u) with calls := calls, outcome := some (Except.error e) }
    | none =>
      let s := { (initState isOut u) with calls := calls, pending := List.range tasks }
      doSettle { s with submitted := tasks }

/-- Run a sequence of completion events through the engine. -/
def runPoll (cb : σ → CbResult × σ) : PollState σ → List (Nat × Option Err) → PollState σ
  | s, [] => s
  | s, ev :: evs => runPoll cb (transferStep cb s ev.1 ev.2) evs

/-- A pure user callback that only observes how many times it has been
invoked: the oracle `f` gives the result of the n-th invocation. -/
def countCb (f : Nat → CbResult) (n : Nat) : CbResult × Nat := (f n, n + 1)

/-- The mutable fields of `HackrfDevice` relevant to stream dispatch
(`interface.ts:791,811`) plus the firmware API version
(`bcdDevice`, `interface.ts:311-313`). -/
structure HackrfDevice where
  streaming : Bool
  stopRequested : Bool
  usbApiVersion : Nat
deriving DecidableEq, Repr

/-- `requestStop()` (`interface.ts:824-827`): synchronously set
`_stopRequested`; returns at once, without waiting for the stream. -/
def requestStop (d : HackrfDevice) : HackrfDevice :=
  { d with stopRequested := true }

/-- `_lockStream` (`interface.ts:800-809`): reject with `BUSY` if a
stream is active, otherwise run the body with `_streaming` set, clearing
it afterwards (also on failure). -/
def lockStream {α : Type} (d : HackrfDevice) (body : HackrfDevice → HackrfDevice × Except Err α) :
    HackrfDevice × Except Err α :=
  if d.streaming then (d, Except.error busyError)
  else
    let r := body { d with streaming := true }
    ({ r.1 with streaming := false }, r.2)

/-- `transmit` (`interface.ts:866-868`) delegates to `_stream`, whose
body runs under `_lockStream`; `body` stands for that stream body. -/
def transmitOp {α : Type} (d : HackrfDevice) (body : HackrfDevice → HackrfDevice × Except Err α) :
    HackrfDevice × Except Err α :=
  lockStream d body

/-- `receive` (`interface.ts:890-892`), as `transmitOp`. -/
def receiveOp {α : Type} (d : HackrfDevice) (body : HackrfDevice → HackrfDevice × Except Err α) :
    HackrfDevice × Except Err α :=
  lockStream d body

/-- `cpld_write` (`interface.ts:919-926`): runs its upload body under
`_lockStream`. -/
def cpldWriteOp {α : Type} (d : HackrfDevice) (body : HackrfDevice → HackrfDevice × Except Err α) :
    HackrfDevice × Except Err α :=
  lockStream d body

/-- `sweepReceive` (`interface.ts:904-907`): `usbApiRequired(0x0104)`
runs first (`interface.ts:315-318`, throws `USB_API_VERSION` when
`usbApiVersion < 0x0104`), then `_stream` runs under `_lockStream`. -/
def sweepReceiveOp {α : Type} (d : HackrfDevice)
    (body : HackrfDevice → HackrfDevice × Except Err α) : HackrfDevice × Except Err α :=
  if d.usbApiVersion < 0x0104 then (d, Except.error usbApiVersionError)
  else lockStream d body

/-- The user state threaded through a `_stream` run: the device's
`_stopRequested` flag as read by the wrapper callback, and the number of
invocations of the user-supplied callback. -/
abbrev StreamUser := Bool × Nat

/-- The wrapper callback `_stream` passes to `poll`
(`interface.ts:834-838`): if `_stopRequested` return `false`, otherwise
delegate to the user callback (whose n-th result is `f n`). -/
def streamCb (f : Nat → CbResult) (u : StreamUser) : CbResult × StreamUser :=
  if u.1 then (CbResult.stop, u) else (f u.2, (u.1, u.2 + 1))

/-- An event during a device-level stream: a transfer completion, or a
`requestStop()` call arriving between completions. -/
inductive DevEvent where
  | complete (t : Nat) (status : Option Err)
  | stopRequest
deriving Repr

/-- Device-level step: completions drive `transferStep` with the wrapper
callback; `requestStop()` sets the flag the wrapper reads. -/
def devStep (f : Nat → CbResult) (s : PollState StreamUser) : DevEvent → PollState StreamUser
  | DevEvent.complete t status => transferStep (streamCb f) s t status
  | DevEvent.stopRequest => { s with user := (true, s.user.2) }

/-- Run a sequence of device-level events. -/
def runDev (f : Nat → CbResult) : PollState StreamUser → List DevEvent → PollState StreamUser
  | s, [] => s
  | s, e :: es => runDev f (devStep f s e) es

/-- Initial poll state of a `_stream` run (`interface.ts:829-838`):
`_stopRequested` is reset to `false` before `poll` starts, and `setup`
is the mode-change request (its failure is `setupResult`). -/
def streamPollInit (isOut : Bool) (transferCount : Nat) (f : Nat → CbResult)
    (setupResult : Option Err) : PollState StreamUser :=
  initPoll isOut transferCount (streamCb f) (false, 0) setupResult

/-- `_stream` start (`interface.ts:829-838`) as observed before any
completion: the `_lockStream` busy gate, then the `_stopRequested`
reset, then the `poll` initialisation.  The initial wrapper state reads
the just-reset flag of the locked device. -/
def streamStart (d : HackrfDevice) (isOut : Bool) (transferCount : Nat) (f : Nat → CbResult)
    (setupResult : Option Err) : Except Err (PollState StreamUser) :=
  if d.streaming then Except.error busyError
  else
    let d1 := { d with streaming := true, stopRequested := false }
    Except.ok (initPoll isOut transferCount (streamCb f) (d1.stopRequested, 0) setupResult)

/-- `try { .. } finally { await this.setTransceiverMode(OFF) }`
(`interface.ts:832-841`) under JavaScript semantics: when the `finally`
block itself throws (the OFF request fails), its exception becomes the
result of the whole statement, superseding any earlier outcome;
otherwise the body's outcome stands. -/
def tryFinallyOff (bodyOutcome : Except Err Unit) (offResult : Option Err) : Except Err Unit :=
  match offResult with
  | none => bodyOutcome
  | some f => Except.error f

/-- Observable result of a completed `_stream` run: the transceiver-mode
control requests issued, in order, and the settlement of the promise
returned by `_stream`. -/
structure StreamExec where
  modeRequests : List TransceiverMode
  result : Except Err Unit
deriving Repr

/-- Whether `setup()` ran during `poll` (`interface.ts:130`): it does
unless the OUT pre-fill callback threw, which aborts the executor before
the `Promise.resolve(setup())` line. -/
def pollSetupRan (isOut : Bool) (cb : σ → CbResult × σ) (transferCount : Nat) (u0 : σ) : Bool :=
  match prefill isOut cb transferCount u0 with
  | PrefillResult.thrown _ _ _ => false
  | PrefillResult.filled _ _ _ => true

/-- A full `_stream` execution (`interface.ts:829-843`): the poll body
is driven by `events`; if its promise settles with outcome `po`, the
`finally` block issues the return-to-OFF mode request (failing with
`offResult`) and the operation settles per `tryFinallyOff`.  While the
poll promise is unsettled (`outcome = none`), `_stream` has not
returned and no OFF request was issued yet: the result is `none`. -/
def streamRunFull (mode : TransceiverMode) (isOut : Bool) (transferCount : Nat)
    (f : Nat → CbResult) (setupResult : Option Err) (events : List DevEvent)
    (offResult : Option Err) : Option StreamExec :=
  match (runDev f (streamPollInit isOut transferCount f setupResult) events).outcome with
  | none => none
  | some po =>
    let setupReq : List TransceiverMode :=
      if pollSetupRan isOut (streamCb f) transferCount (false, 0) then [mode] else []
    some { modeRequests := setupReq ++ [TransceiverMode.off],
           result := tryFinallyOff po offResult }

/-- Structural invariant of the `poll` closure state, independent of the
promise: pending transfer ids are distinct; `rejected` and `cancelled`
each imply `settled`; once cancellation was requested, every pending
transfer has had `cancel()` issued on it; `rejected` implies a stored
reason. -/
def CoreInv (s : PollState σ) : Prop :=
  s.pending.Nodup ∧
  (s.rejected = true → s.settled = true) ∧
  (s.cancelled = true → s.settled = true) ∧
  (s.cancelled = true → ∀ x ∈ s.pending, x ∈ s.cancelIssued) ∧
  (s.rejected = true → s.reason.isSome = true)

/-- Full invariant: `CoreInv` plus: the promise only ever settles with no
transfer pending. -/
def StateInv (s : PollState σ) : Prop :=
  CoreInv s ∧ (s.outcome.isSome = true → s.pending = [])

instance decidableCoreInv (s : PollState σ) : Decidable (CoreInv s) := by
  unfold CoreInv; infer_instance

instance decidableStateInv (s : PollState σ) : Decidable (StateInv s) := by
  unfold StateInv; infer_instance

/-! ### Projection lemmas for the phase functions -/

@[simp]
theorem tryCancel_isOut (s : PollState σ) : (tryCancel s).isOut = s.isOut := by
  unfold tryCancel; split <;> rfl

@[simp]
theorem tryCancel_pending (s : PollState σ) : (tryCancel s).pending = s.pending := by
  unfold tryCancel; split <;> rfl

@[simp]
theorem tryCancel_settled (s : PollState σ) : (tryCancel s).settled = s.settled := by
  unfold tryCancel; split <;> rfl

@[simp]
theorem tryCancel_rejected (s : PollState σ) : (tryCancel s).rejected = s.rejected := by
  unfold tryCancel; split <;> rfl

@[simp]
theorem tryCancel_reason (s : PollState σ) : (tryCancel s).reason = s.reason := by
  unfold tryCancel; split <;> rfl

@[simp]
theorem tryCancel_outcome (s : PollState σ) : (tryCancel s).outcome = s.outcome := by
  unfold tryCancel; split <;> rfl

@[simp]
theorem tryCancel_calls (s : PollState σ) : (tryCancel s).calls = s.calls := by
  unfold tryCancel; split <;> rfl

@[simp]
theorem tryCancel_user (s : PollState σ) : (tryCancel s).user = s.user := by
  unfold tryCancel; split <;> rfl

@[simp]
theorem tryCancel_submitted (s : PollState σ) : (tryCancel s).submitted = s.submitted := by
  unfold tryCancel; split <;> rfl

@[simp]
theorem tryCancel_cancelled (s : PollState σ) : (tryCancel s).cancelled = true := by
  unfold tryCancel; split
  case isTrue h => exact h
  case isFalse h => rfl

theorem tryCancel_cancelIssued_mono (s : PollState σ) {x : Nat} (h : x ∈ s.cancelIssued) :
    x ∈ (tryCancel s).cancelIssued := by
  unfold tryCancel; split
  · exact h
  · exact List.mem_append_left _ h

theorem tryCancel_pending_cancelIssued (s : PollState σ)
    (h : s.cancelled = true → ∀ x ∈ s.pending, x ∈ s.cancelIssued) :
    ∀ x ∈ s.pending, x ∈ (tryCancel s).cancelIssued := by
  unfold tryCancel; split
  case isTrue hc => exact h hc
  case isFalse hc => exact fun x hx => List.mem_append_right _ hx

@[simp]
theorem wrapResolve_isOut (s : PollState σ) : (wrapResolve s).isOut = s.isOut := by
  unfold wrapResolve; split <;> simp

@[simp]
theorem wrapResolve_pending (s : PollState σ) : (wrapResolve s).pending = s.pending := by
  unfold wrapResolve; split <;> simp

@[simp]
theorem wrapResolve_settled (s : PollState σ) : (wrapResolve s).settled = true := by
  unfold wrapResolve; split <;> simp

@[simp]
theorem wrapResolve_rejected (s : PollState σ) : (wrapResolve s).rejected = s.rejected := by
  unfold wrapResolve; split <;> simp

@[simp]
theorem wrapResolve_reason (s : PollState σ) : (wrapResolve s).reason = s.reason := by
  unfold wrapResolve; split <;> simp

@[simp]
theorem wrapResolve_outcome (s : PollState σ) : (wrapResolve s).outcome = s.outcome := by
  unfold wrapResolve; split <;> simp

@[simp]
theorem wrapResolve_calls (s : PollState σ) : (wrapResolve s).calls = s.calls := by
  unfold wrapResolve; split <;> simp

@[simp]
theorem wrapResolve_user (s : PollState σ) : (wrapResolve s).user = s.user := by
  unfold wrapResolve; split <;> simp

@[simp]
theorem wrapResolve_submitted (s : PollState σ) : (wrapResolve s).submitted = s.submitted := by
  unfold wrapResolve; split <;> simp

theorem wrapResolve_of_isOut (s : PollState σ) (h : s.isOut = true) :
    wrapResolve s = { s with settled := true } := by
  unfold wrapResolve; rw [h]; simp

theorem wrapResolve_cancelled_of_not_isOut (s : PollState σ) (h : s.isOut = false) :
    (wrapResolve s).cancelled = true := by
  unfold wrapResolve; rw [h]; simp

theorem wrapResolve_cancelled_of_isOut (s : PollState σ) (h : s.isOut = true) :
    (wrapResolve s).cancelled = s.cancelled := by
  rw [wrapResolve_of_isOut s h]

theorem wrapResolve_cancelIssued_of_isOut (s : PollState σ) (h : s.isOut = true) :
    (wrapResolve s).cancelIssued = s.cancelIssued := by
  rw [wrapResolve_of_isOut s h]

theorem wrapResolve_cancelIssued_of_not_isOut (s : PollState σ) (h : s.isOut = false)
    (hsub : s.cancelled = true → ∀ x ∈ s.pending, x ∈ s.cancelIssued) :
    ∀ x ∈ s.pending, x ∈ (wrapResolve s).cancelIssued := by
  unfold wrapResolve; rw [h]; simp only [Bool.false_eq_true, if_false]
  exact tryCancel_pending_cancelIssued { s with isOut := false, settled := true } hsub

@[simp]
theorem wrapReject_isOut (e : Err) (s : PollState σ) : (wrapReject e s).isOut = s.isOut := by
  unfold wrapReject; simp

@[simp]
theorem wrapReject_pending (e : Err) (s : PollState σ) : (wrapReject e s).pending = s.pending := by
  unfold wrapReject; simp

@[simp]
theorem wrapReject_settled (e : Err) (s : PollState σ) : (wrapReject e s).settled = true := by
  unfold wrapReject; simp

@[simp]
theorem wrapReject_rejected (e : Err) (s : PollState σ) : (wrapReject e s).rejected = true := by
  unfold wrapReject; simp

@[simp]
theorem wrapReject_reason (e : Err) (s : PollState σ) : (wrapReject e s).reason = some e := by
  unfold wrapReject; simp

@[simp]
theorem wrapReject_outcome (e : Err) (s : PollState σ) : (wrapReject e s).outcome = s.outcome := by
  unfold wrapReject; simp

@[simp]
theorem wrapReject_calls (e : Err) (s : PollState σ) : (wrapReject e s).calls = s.calls := by
  unfold wrapReject; simp

@[simp]
theorem wrapReject_user (e : Err) (s : PollState σ) : (wrapReject e s).user = s.user := by
  unfold wrapReject; simp

@[simp]
theorem wrapReject_submitted (e : Err) (s : PollState σ) :
    (wrapReject e s).submitted = s.submitted := by
  unfold wrapReject; simp

@[simp]
theorem wrapReject_cancelled (e : Err) (s : PollState σ) :
    (wrapReject e s).cancelled = true := by
  unfold wrapReject; simp

theorem wrapReject_cancelIssued_mono (e : Err) (s : PollState σ) {x : Nat}
    (h : x ∈ s.cancelIssued) : x ∈ (wrapReject e s).cancelIssued := by
  unfold wrapReject
  exact tryCancel_cancelIssued_mono _ h

theorem wrapReject_pending_cancelIssued (e : Err) (s : PollState σ)
    (hsub : s.cancelled = true → ∀ x ∈ s.pending, x ∈ s.cancelIssued) :
    ∀ x ∈ s.pending, x ∈ (wrapReject e s).cancelIssued := by
  unfold wrapReject
  exact tryCancel_pending_cancelIssued
    { s with settled := true, rejected := true, reason := some e } hsub

@[simp]
theorem stepReject_none (s : PollState σ) : stepReject s none = s := rfl

theorem stepReject_of_rejected (s : PollState σ) (e : Option Err) (h : s.rejected = true) :
    stepReject s e = s := by
  cases e with
  | none => rfl
  | some e => simp [stepReject, h]

theorem stepReject_some_of_not_rejected (s : PollState σ) (e : Err) (h : s.rejected = false) :
    stepReject s (some e) = wrapReject e s := by
  simp [stepReject, h]

@[simp]
theorem stepReject_isOut (s : PollState σ) (e : Option Err) :
    (stepReject s e).isOut = s.isOut := by
  unfold stepReject; cases e <;> simp <;> split <;> simp

@[simp]
theorem stepReject_pending (s : PollState σ) (e : Option Err) :
    (stepReject s e).pending = s.pending := by
  unfold stepReject; cases e <;> simp <;> split <;> simp

@[simp]
theorem stepReject_outcome (s : PollState σ) (e : Option Err) :
    (stepReject s e).outcome = s.outcome := by
  unfold stepReject; cases e <;> simp <;> split <;> simp

@[simp]
theorem stepReject_calls (s : PollState σ) (e : Option Err) :
    (stepReject s e).calls = s.calls := by
  unfold stepReject; cases e <;> simp <;> split <;> simp

@[simp]
theorem stepReject_user (s : PollState σ) (e : Option Err) :
    (stepReject s e).user = s.user := by
  unfold stepReject; cases e <;> simp <;> split <;> simp

@[simp]
theorem stepReject_submitted (s : PollState σ) (e : Option Err) :
    (stepReject s e).submitted = s.submitted := by
  unfold stepReject; cases e <;> simp <;> split <;> simp

theorem stepReject_settled_of_settled (s : PollState σ) (e : Option Err)
    (h : s.settled = true) : (stepReject s e).settled = true := by
  unfold stepReject; cases e <;> simp [h] <;> split <;> simp [h]

theorem stepReject_cancelIssued_mono (s : PollState σ) (e : Option Err) {x : Nat}
    (h : x ∈ s.cancelIssued) : x ∈ (stepReject s e).cancelIssued := by
  cases e with
  | none => exact h
  | some e =>
    cases hr : s.rejected with
    | true => rw [stepReject_of_rejected s (some e) hr]; exact h
    | false => rw [stepReject_some_of_not_rejected s e hr]; exact wrapReject_cancelIssued_mono e s h

@[simp]
theorem stepErase_pending (t : Nat) (s : PollState σ) :
    (stepErase t s).pending = s.pending.erase t := rfl

@[simp]
theorem stepErase_isOut (t : Nat) (s : PollState σ) : (stepErase t s).isOut = s.isOut := rfl

@[simp]
theorem stepErase_settled (t : Nat) (s : PollState σ) : (stepErase t s).settled = s.settled := rfl

@[simp]
theorem stepErase_rejected (t : Nat) (s : PollState σ) :
    (stepErase t s).rejected = s.rejected := rfl

@[simp]
theorem stepErase_reason (t : Nat) (s : PollState σ) : (stepErase t s).reason = s.reason := rfl

@[simp]
theorem stepErase_cancelled (t : Nat) (s : PollState σ) :
    (stepErase t s).cancelled = s.cancelled := rfl

@[simp]
theorem stepErase_cancelIssued (t : Nat) (s : PollState σ) :
    (stepErase t s).cancelIssued = s.cancelIssued := rfl

@[simp]
theorem stepErase_outcome (t : Nat) (s : PollState σ) : (stepErase t s).outcome = s.outcome := rfl

@[simp]
theorem stepErase_calls (t : Nat) (s : PollState σ) : (stepErase t s).calls = s.calls := rfl

@[simp]
theorem stepErase_user (t : Nat) (s : PollState σ) : (stepErase t s).user = s.user := rfl

@[simp]
theorem stepErase_submitted (t : Nat) (s : PollState σ) :
    (stepErase t s).submitted = s.submitted := rfl

theorem stepCallback_of_settled (cb : σ → CbResult × σ) (s : PollState σ)
    (h : s.settled = true) : stepCallback cb s = s := by
  simp [stepCallback, h]

theorem stepCallback_cont (cb : σ → CbResult × σ) (s : PollState σ) {u : σ}
    (hns : s.settled = false) (hcb : cb s.user = (CbResult.cont, u)) :
    stepCallback cb s = { s with user := u, calls := s.calls + 1 } := by
  simp [stepCallback, hns, hcb]

theorem stepCallback_stop (cb : σ → CbResult × σ) (s : PollState σ) {u : σ}
    (hns : s.settled = false) (hcb : cb s.user = (CbResult.stop, u)) :
    stepCallback cb s = wrapResolve { s with user := u, calls := s.calls + 1 } := by
  simp [stepCallback, hns, hcb]

theorem stepCallback_throws (cb : σ → CbResult × σ) (s : PollState σ) {u : σ} {e : Err}
    (hns : s.settled = false) (hcb : cb s.user = (CbResult.throws e, u)) :
    stepCallback cb s = wrapReject e { s with user := u, calls := s.calls + 1 } := by
  simp [stepCallback, hns, hcb]

@[simp]
theorem stepCallback_isOut (cb : σ → CbResult × σ) (s : PollState σ) :
    (stepCallback cb s).isOut = s.isOut := by
  unfold stepCallback; split
  · rfl
  · split <;> simp

@[simp]
theorem stepCallback_pending (cb : σ → CbResult × σ) (s : PollState σ) :
    (stepCallback cb s).pending = s.pending := by
  unfold stepCallback; split
  · rfl
  · split <;> simp

@[simp]
theorem stepCallback_outcome (cb : σ → CbResult × σ) (s : PollState σ) :
    (stepCallback cb s).outcome = s.outcome := by
  unfold stepCallback; split
  · rfl
  · split <;> simp

@[simp]
theorem stepCallback_submitted (cb : σ → CbResult × σ) (s : PollState σ) :
    (stepCallback cb s).submitted = s.submitted := by
  unfold stepCallback; split
  · rfl
  · split <;> simp

theorem wrapResolve_cancelIssued_mono (s : PollState σ) {x : Nat}
    (h : x ∈ s.cancelIssued) : x ∈ (wrapResolve s).cancelIssued := by
  unfold wrapResolve; split
  · exact h
  · exact tryCancel_cancelIssued_mono { s with settled := true } h

theorem stepCallback_cancelIssued_mono (cb : σ → CbResult × σ) (s : PollState σ) {x : Nat}
    (h : x ∈ s.cancelIssued) : x ∈ (stepCallback cb s).cancelIssued := by
  unfold stepCallback; split
  · exact h
  · split
    · exact h
    · exact wrapResolve_cancelIssued_mono _ h
    · exact wrapReject_cancelIssued_mono _ _ h

theorem stepResubmit_of_settled (t : Nat) (s : PollState σ) (h : s.settled = true) :
    stepResubmit t s = s := by
  simp [stepResubmit, h]

theorem stepResubmit_of_not_settled (t : Nat) (s : PollState σ) (h : s.settled = false) :
    stepResubmit t s = { s with pending := t :: s.pending, submitted := s.submitted + 1 } := by
  simp [stepResubmit, h]

@[simp]
theorem stepResubmit_isOut (t : Nat) (s : PollState σ) : (stepResubmit t s).isOut = s.isOut := by
  unfold stepResubmit; split <;> rfl

@[simp]
theorem stepResubmit_settled (t : Nat) (s : PollState σ) :
    (stepResubmit t s).settled = s.settled := by
  unfold stepResubmit; split <;> rfl

@[simp]
theorem stepResubmit_rejected (t : Nat) (s : PollState σ) :
    (stepResubmit t s).rejected = s.rejected := by
  unfold stepResubmit; split <;> rfl

@[simp]
theorem stepResubmit_reason (t : Nat) (s : PollState σ) :
    (stepResubmit t s).reason = s.reason := by
  unfold stepResubmit; split <;> rfl

@[simp]
theorem stepResubmit_cancelled (t : Nat) (s : PollState σ) :
    (stepResubmit t s).cancelled = s.cancelled := by
  unfold stepResubmit; split <;> rfl

@[simp]
theorem stepResubmit_cancelIssued (t : Nat) (s : PollState σ) :
    (stepResubmit t s).cancelIssued = s.cancelIssued := by
  unfold stepResubmit; split <;> rfl

@[simp]
theorem stepResubmit_outcome (t : Nat) (s : PollState σ) :
    (stepResubmit t s).outcome = s.outcome := by
  unfold stepResubmit; split <;> rfl

@[simp]
theorem stepResubmit_calls (t : Nat) (s : PollState σ) : (stepResubmit t s).calls = s.calls := by
  unfold stepResubmit; split <;> rfl

@[simp]
theorem stepResubmit_user (t : Nat) (s : PollState σ) : (stepResubmit t s).user = s.user := by
  unfold stepResubmit; split <;> rfl

@[simp]
theorem doSettle_isOut (s : PollState σ) : (doSettle s).isOut = s.isOut := by
  unfold doSettle; split <;> rfl

@[simp]
theorem doSettle_pending (s : PollState σ) : (doSettle s).pending = s.pending := by
  unfold doSettle; split <;> rfl

@[simp]
theorem doSettle_settled (s : PollState σ) : (doSettle s).settled = s.settled := by
  unfold doSettle; split <;> rfl

@[simp]
theorem doSettle_rejected (s : PollState σ) : (doSettle s).rejected = s.rejected := by
  unfold doSettle; split <;> rfl

@[simp]
theorem doSettle_reason (s : PollState σ) : (doSettle s).reason = s.reason := by
  unfold doSettle; split <;> rfl

@[simp]
theorem doSettle_cancelled (s : PollState σ) : (doSettle s).cancelled = s.cancelled := by
  unfold doSettle; split <;> rfl

@[simp]
theorem doSettle_cancelIssued (s : PollState σ) : (doSettle s).cancelIssued = s.cancelIssued := by
  unfold doSettle; split <;> rfl

@[simp]
theorem doSettle_calls (s : PollState σ) : (doSettle s).calls = s.calls := by
  unfold doSettle; split <;> rfl

@[simp]
theorem doSettle_user (s : PollState σ) : (doSettle s).user = s.user := by
  unfold doSettle; split <;> rfl

@[simp]
theorem doSettle_submitted (s : PollState σ) : (doSettle s).submitted = s.submitted := by
  unfold doSettle; split <;> rfl

theorem doSettle_of_not_settled (s : PollState σ) (h : s.settled = false) :
    doSettle s = s := by
  simp [doSettle, h]

theorem doSettle_outcome_cases (s : PollState σ) :
    (doSettle s).outcome = s.outcome ∨
      (s.pending = [] ∧
        (doSettle s).outcome =
          some (if s.rejected then Except.error (s.reason.getD (Err.hackrf 0))
                else Except.ok ())) := by
  unfold doSettle; split
  case isTrue h => exact Or.inr ⟨h.2, rfl⟩
  case isFalse h => exact Or.inl rfl

/-! ### Unfolding equations and invariant preservation -/

theorem transferStep_eq_of_mem (cb : σ → CbResult × σ) (s : PollState σ) (t : Nat)
    (st : Option Err) (ht : t ∈ s.pending) :
    transferStep cb s t st =
      doSettle (stepResubmit t (stepCallback cb (stepErase t (stepReject s (effectiveError s st))))) := by
  unfold transferStep; rw [if_pos ht]

theorem transferStep_eq_of_not_mem (cb : σ → CbResult × σ) (s : PollState σ) (t : Nat)
    (st : Option Err) (ht : t ∉ s.pending) : transferStep cb s t st = s := by
  unfold transferStep; rw [if_neg ht]

theorem settled_false_flags (s : PollState σ) (h : CoreInv s) (hsf : s.settled = false) :
    s.rejected = false ∧ s.cancelled = false := by
  obtain ⟨-, hrs, hcs, -, -⟩ := h
  constructor
  · cases hrj : s.rejected with
    | false => rfl
    | true => rw [hrs hrj] at hsf; exact Bool.noConfusion hsf
  · cases hcj : s.cancelled with
    | false => rfl
    | true => rw [hcs hcj] at hsf; exact Bool.noConfusion hsf

theorem coreInv_wrapResolve (s : PollState σ) (h : CoreInv s) : CoreInv (wrapResolve s) := by
  obtain ⟨hnd, hrs, hcs, hsub, hre⟩ := h
  refine ⟨by simpa using hnd, fun _ => wrapResolve_settled s, fun _ => wrapResolve_settled s,
    ?_, by simpa using hre⟩
  cases hio : s.isOut with
  | true =>
    rw [wrapResolve_of_isOut s hio]
    exact hsub
  | false =>
    intro _
    simpa using wrapResolve_cancelIssued_of_not_isOut s hio hsub

theorem coreInv_wrapReject (e : Err) (s : PollState σ) (h : CoreInv s) :
    CoreInv (wrapReject e s) := by
  obtain ⟨hnd, hrs, hcs, hsub, hre⟩ := h
  refine ⟨by simpa using hnd, fun _ => wrapReject_settled e s, fun _ => wrapReject_settled e s,
    ?_, fun _ => by simp⟩
  intro _
  simpa using wrapReject_pending_cancelIssued e s hsub

theorem coreInv_stepReject (s : PollState σ) (e : Option Err) (h : CoreInv s) :
    CoreInv (stepReject s e) := by
  cases e with
  | none => exact h
  | some e =>
    cases hr : s.rejected with
    | true => rw [stepReject_of_rejected s (some e) hr]; exact h
    | false => rw [stepReject_some_of_not_rejected s e hr]; exact coreInv_wrapReject e s h

theorem coreInv_stepErase (t : Nat) (s : PollState σ) (h : CoreInv s) :
    CoreInv (stepErase t s) := by
  obtain ⟨hnd, hrs, hcs, hsub, hre⟩ := h
  exact ⟨hnd.erase t, hrs, hcs,
    fun hc x hx => hsub hc x (List.mem_of_mem_erase hx), hre⟩

theorem coreInv_stepCallback (cb : σ → CbResult × σ) (s : PollState σ) (h : CoreInv s) :
    CoreInv (stepCallback cb s) := by
  unfold stepCallback; split
  · exact h
  · obtain ⟨hnd, hrs, hcs, hsub, hre⟩ := h
    split
    · exact ⟨hnd, hrs, hcs, hsub, hre⟩
    · exact coreInv_wrapResolve _ ⟨hnd, hrs, hcs, hsub, hre⟩
    · exact coreInv_wrapReject _ _ ⟨hnd, hrs, hcs, hsub, hre⟩

theorem coreInv_stepResubmit (t : Nat) (s : PollState σ) (h : CoreInv s)
    (ht : t ∉ s.pending) : CoreInv (stepResubmit t s) := by
  unfold stepResubmit; split
  · exact h
  case isFalse hsf =>
    have hsf2 : s.settled = false := by
      cases hs : s.settled with
      | false => rfl
      | true => exact absurd hs hsf
    obtain ⟨hrf, hcf⟩ := settled_false_flags s h hsf2
    obtain ⟨hnd, hrs, hcs, hsub, hre⟩ := h
    refine ⟨List.nodup_cons.mpr ⟨ht, hnd⟩, ?_, ?_, ?_, ?_⟩
    · intro hr; rw [hrf] at hr; exact Bool.noConfusion hr
    · intro hc; rw [hcf] at hc; exact Bool.noConfusion hc
    · intro hc; rw [hcf] at hc; exact Bool.noConfusion hc
    · intro hr; rw [hrf] at hr; exact Bool.noConfusion hr

theorem coreInv_doSettle (s : PollState σ) (h : CoreInv s) : CoreInv (doSettle s) := by
  obtain ⟨hnd, hrs, hcs, hsub, hre⟩ := h
  exact ⟨by simpa using hnd, by simpa using hrs, by simpa using hcs,
    by simpa using hsub, by simpa using hre⟩

theorem coreInv_transferStep (cb : σ → CbResult × σ) (s : PollState σ) (t : Nat)
    (st : Option Err) (h : CoreInv s) : CoreInv (transferStep cb s t st) := by
  by_cases ht : t ∈ s.pending
  · rw [transferStep_eq_of_mem cb s t st ht]
    have h1 := coreInv_stepReject s (effectiveError s st) h
    have h2 := coreInv_stepErase t _ h1
    have h3 := coreInv_stepCallback cb _ h2
    have ht3 : t ∉ (stepCallback cb (stepErase t (stepReject s (effectiveError s st)))).pending := by
      simp only [stepCallback_pending, stepErase_pending, stepReject_pending]
      intro hmem
      exact absurd ((h.1.mem_erase_iff).mp hmem).1 (by simp)
    exact coreInv_doSettle _ (coreInv_stepResubmit t _ h3 ht3)
  · rw [transferStep_eq_of_not_mem cb s t st ht]; exact h

theorem stateInv_transferStep (cb : σ → CbResult × σ) (s : PollState σ) (t : Nat)
    (st : Option Err) (h : StateInv s) : StateInv (transferStep cb s t st) := by
  obtain ⟨hc, hout⟩ := h
  by_cases ht : t ∈ s.pending
  · have hso : s.outcome = none := by
      cases ho : s.outcome with
      | none => rfl
      | some r =>
        have hp : s.pending = [] := hout (by rw [ho]; rfl)
        rw [hp] at ht
        exact absurd ht (List.not_mem_nil t)
    refine ⟨coreInv_transferStep cb s t st hc, ?_⟩
    rw [transferStep_eq_of_mem cb s t st ht]
    rcases doSettle_outcome_cases
        (stepResubmit t (stepCallback cb (stepErase t (stepReject s (effectiveError s st)))))
      with hcase | ⟨hp, hcase⟩
    · intro hsome
      rw [hcase] at hsome
      simp only [stepResubmit_outcome, stepCallback_outcome, stepErase_outcome,
        stepReject_outcome, hso] at hsome
      exact Bool.noConfusion hsome
    · intro _
      rw [doSettle_pending]
      exact hp
  · rw [transferStep_eq_of_not_mem cb s t st ht]; exact ⟨hc, hout⟩

theorem stateInv_runPoll (cb : σ → CbResult × σ) (s : PollState σ)
    (es : List (Nat × Option Err)) (h : StateInv s) : StateInv (runPoll cb s es) := by
  induction es generalizing s with
  | nil => exact h
  | cons ev evs ih => exact ih _ (stateInv_transferStep cb s ev.1 ev.2 h)

theorem stateInv_devStep (f : Nat → CbResult) (s : PollState StreamUser) (e : DevEvent)
    (h : StateInv s) : StateInv (devStep f s e) := by
  cases e with
  | complete t st => exact stateInv_transferStep (streamCb f) s t st h
  | stopRequest => exact h

theorem stateInv_runDev (f : Nat → CbResult) (s : PollState StreamUser) (es : List DevEvent)
    (h : StateInv s) : StateInv (runDev f s es) := by
  induction es generalizing s with
  | nil => exact h
  | cons e es ih => exact ih _ (stateInv_devStep f s e h)

theorem stateInv_of_rejectedInit (isOut : Bool) (u : σ) (c : Nat) (o : Except Err Unit) :
    StateInv { (initState isOut u) with calls := c, outcome := some o } := by
  refine ⟨⟨List.nodup_nil, ?_, ?_, ?_, ?_⟩, fun _ => rfl⟩ <;> intro h <;> exact nomatch h

theorem stateInv_of_runningInit (isOut : Bool) (u : σ) (c tasks : Nat) :
    StateInv (doSettle
      { (initState isOut u) with calls := c, pending := List.range tasks, submitted := tasks }) := by
  rw [doSettle_of_not_settled _ rfl]
  refine ⟨⟨List.nodup_range tasks, ?_, ?_, ?_, ?_⟩, ?_⟩ <;> intro h <;> exact nomatch h

theorem stateInv_initPoll (isOut : Bool) (count : Nat) (cb : σ → CbResult × σ) (u0 : σ)
    (setupR : Option Err) : StateInv (initPoll isOut count cb u0 setupR) := by
  unfold initPoll
  cases hpf : prefill isOut cb count u0 with
  | thrown e u calls => exact stateInv_of_rejectedInit isOut u calls (Except.error e)
  | filled tasks u calls =>
    cases setupR with
    | some e => exact stateInv_of_rejectedInit isOut u calls (Except.error e)
    | none => exact stateInv_of_runningInit isOut u calls tasks

/-! ### Frozen-state lemmas: behaviour after the stream has settled -/

theorem runPoll_nil (cb : σ → CbResult × σ) (s : PollState σ) : runPoll cb s [] = s := rfl

theorem runPoll_cons (cb : σ → CbResult × σ) (s : PollState σ) (ev : Nat × Option Err)
    (evs : List (Nat × Option Err)) :
    runPoll cb s (ev :: evs) = runPoll cb (transferStep cb s ev.1 ev.2) evs := rfl

theorem runDev_nil (f : Nat → CbResult) (s : PollState StreamUser) : runDev f s [] = s := rfl

theorem runDev_cons (f : Nat → CbResult) (s : PollState StreamUser) (e : DevEvent)
    (es : List DevEvent) : runDev f s (e :: es) = runDev f (devStep f s e) es := rfl

theorem transferStep_of_settled (cb : σ → CbResult × σ) (s : PollState σ) (t : Nat)
    (st : Option Err) (h : s.settled = true) :
    (transferStep cb s t st).settled = true ∧ (transferStep cb s t st).calls = s.calls ∧
    (transferStep cb s t st).user = s.user ∧ (transferStep cb s t st).submitted = s.submitted := by
  by_cases ht : t ∈ s.pending
  · rw [transferStep_eq_of_mem cb s t st ht]
    have h2 : (stepErase t (stepReject s (effectiveError s st))).settled = true := by
      simpa using stepReject_settled_of_settled s (effectiveError s st) h
    rw [stepCallback_of_settled _ _ h2, stepResubmit_of_settled _ _ h2]
    exact ⟨by simpa using h2, by simp, by simp, by simp⟩
  · rw [transferStep_eq_of_not_mem cb s t st ht]; exact ⟨h, rfl, rfl, rfl⟩

theorem runPoll_of_settled (cb : σ → CbResult × σ) (s : PollState σ)
    (es : List (Nat × Option Err)) (h : s.settled = true) :
    (runPoll cb s es).settled = true ∧ (runPoll cb s es).calls = s.calls ∧
    (runPoll cb s es).user = s.user ∧ (runPoll cb s es).submitted = s.submitted := by
  induction es generalizing s with
  | nil => exact ⟨h, rfl, rfl, rfl⟩
  | cons ev evs ih =>
    obtain ⟨h1, h2, h3, h4⟩ := transferStep_of_settled cb s ev.1 ev.2 h
    obtain ⟨g1, g2, g3, g4⟩ := ih (transferStep cb s ev.1 ev.2) h1
    rw [runPoll_cons]
    exact ⟨g1, by rw [g2, h2], by rw [g3, h3], by rw [g4, h4]⟩

theorem transferStep_of_rejected (cb : σ → CbResult × σ) (s : PollState σ) (t : Nat)
    (st : Option Err) (hc : CoreInv s) (h : s.rejected = true) :
    (transferStep cb s t st).rejected = true ∧ (transferStep cb s t st).reason = s.reason ∧
    (transferStep cb s t st).settled = true := by
  have hs : s.settled = true := hc.2.1 h
  by_cases ht : t ∈ s.pending
  · rw [transferStep_eq_of_mem cb s t st ht, stepReject_of_rejected s _ h]
    have h2 : (stepErase t s).settled = true := by simpa using hs
    rw [stepCallback_of_settled _ _ h2, stepResubmit_of_settled _ _ h2]
    exact ⟨by simpa using h, by simp, by simpa using hs⟩
  · rw [transferStep_eq_of_not_mem cb s t st ht]; exact ⟨h, rfl, hs⟩

theorem runPoll_rejected_run (cb : σ → CbResult × σ) (s : PollState σ)
    (es : List (Nat × Option Err)) (ex : Err) (hInv : StateInv s) (hrej : s.rejected = true)
    (hre : s.reason = some ex)
    (hout : ∀ r, s.outcome = some r → r = Except.error ex) :
    StateInv (runPoll cb s es) ∧ (runPoll cb s es).rejected = true ∧
    (runPoll cb s es).reason = some ex ∧
    (∀ r, (runPoll cb s es).outcome = some r → r = Except.error ex) := by
  induction es generalizing s with
  | nil => exact ⟨hInv, hrej, hre, hout⟩
  | cons ev evs ih =>
    have hInv1 := stateInv_transferStep cb s ev.1 ev.2 hInv
    obtain ⟨h1, h2, h3⟩ := transferStep_of_rejected cb s ev.1 ev.2 hInv.1 hrej
    have hre1 : (transferStep cb s ev.1 ev.2).reason = some ex := by rw [h2, hre]
    have hout1 : ∀ r, (transferStep cb s ev.1 ev.2).outcome = some r → r = Except.error ex := by
      intro r hr
      by_cases ht : ev.1 ∈ s.pending
      · rw [transferStep_eq_of_mem cb s ev.1 ev.2 ht, stepReject_of_rejected s _ hrej] at hr
        have hs : s.settled = true := hInv.1.2.1 hrej
        have h2e : (stepErase ev.1 s).settled = true := by simpa using hs
        rw [stepCallback_of_settled _ _ h2e, stepResubmit_of_settled _ _ h2e] at hr
        rcases doSettle_outcome_cases (stepErase ev.1 s) with hcase | ⟨hp, hcase⟩
        · rw [hcase] at hr
          exact hout r (by simpa using hr)
        · rw [hcase] at hr
          injection hr with hv
          rw [← hv]
          simp [hrej, hre]
      · rw [transferStep_eq_of_not_mem cb s ev.1 ev.2 ht] at hr
        exact hout r hr
    exact ih _ hInv1 h1 hre1 hout1

theorem runPoll_resolved_run (cb : σ → CbResult × σ) (s : PollState σ)
    (es : List (Nat × Option Err)) (hInv : StateInv s) (hs : s.settled = true)
    (hrej : s.rejected = false) (hout : ∀ r, s.outcome = some r → r = Except.ok ())
    (hes : ∀ ev ∈ es, ev.2 = none) :
    StateInv (runPoll cb s es) ∧ (runPoll cb s es).settled = true ∧
    (runPoll cb s es).rejected = false ∧
    (∀ r, (runPoll cb s es).outcome = some r → r = Except.ok ()) := by
  induction es generalizing s with
  | nil => exact ⟨hInv, hs, hrej, hout⟩
  | cons ev evs ih =>
    have hev : ev.2 = none := hes ev (List.mem_cons_self ev evs)
    have hInv1 := stateInv_transferStep cb s ev.1 ev.2 hInv
    have heff : effectiveError s ev.2 = none := by rw [hev]; rfl
    have hstep : (transferStep cb s ev.1 ev.2).settled = true ∧
        (transferStep cb s ev.1 ev.2).rejected = false ∧
        (∀ r, (transferStep cb s ev.1 ev.2).outcome = some r → r = Except.ok ()) := by
      by_cases ht : ev.1 ∈ s.pending
      · rw [transferStep_eq_of_mem cb s ev.1 ev.2 ht, heff, stepReject_none]
        have h2e : (stepErase ev.1 s).settled = true := by simpa using hs
        rw [stepCallback_of_settled _ _ h2e, stepResubmit_of_settled _ _ h2e]
        refine ⟨by simpa using hs, by simpa using hrej, ?_⟩
        intro r hr
        rcases doSettle_outcome_cases (stepErase ev.1 s) with hcase | ⟨hp, hcase⟩
        · rw [hcase] at hr
          exact hout r (by simpa using hr)
        · rw [hcase] at hr
          injection hr with hv
          rw [← hv]
          simp [hrej]
      · rw [transferStep_eq_of_not_mem cb s ev.1 ev.2 ht]
        exact ⟨hs, hrej, hout⟩
    exact ih _ hInv1 hstep.1 hstep.2.1 hstep.2.2
      (fun e he => hes e (List.mem_cons_of_mem ev he))

/-! ### Behaviour of a stream with no pending transfer, and of the stop flag -/

theorem runDev_of_no_pending (f : Nat → CbResult) (s : PollState StreamUser)
    (es : List DevEvent) (hp : s.pending = []) :
    (runDev f s es).outcome = s.outcome ∧ (runDev f s es).pending = [] ∧
    (runDev f s es).submitted = s.submitted := by
  induction es generalizing s with
  | nil => exact ⟨rfl, hp, rfl⟩
  | cons e es ih =>
    rw [runDev_cons]
    cases e with
    | complete t st =>
      have hid : devStep f s (DevEvent.complete t st) = s := by
        show transferStep (streamCb f) s t st = s
        exact transferStep_eq_of_not_mem _ s t st (by rw [hp]; exact List.not_mem_nil t)
      rw [hid]
      exact ih s hp
    | stopRequest =>
      obtain ⟨g1, g2, g3⟩ := ih { s with user := (true, s.user.2) } hp
      exact ⟨g1, g2, g3⟩

theorem stepCallback_user_fixed (cb : σ → CbResult × σ) (s : PollState σ)
    (hfix : (cb s.user).2 = s.user) : (stepCallback cb s).user = s.user := by
  unfold stepCallback; split
  · rfl
  · split
    next u heq => rw [heq] at hfix; exact hfix
    next u heq =>
      rw [heq] at hfix
      rw [wrapResolve_user]
      exact hfix
    next e u heq =>
      rw [heq] at hfix
      rw [wrapReject_user]
      exact hfix

theorem transferStep_user_fixed (cb : σ → CbResult × σ) (s : PollState σ) (t : Nat)
    (st : Option Err) (hfix : (cb s.user).2 = s.user) :
    (transferStep cb s t st).user = s.user := by
  by_cases ht : t ∈ s.pending
  · rw [transferStep_eq_of_mem cb s t st ht, doSettle_user, stepResubmit_user]
    have hX : (stepErase t (stepReject s (effectiveError s st))).user = s.user := by simp
    rw [stepCallback_user_fixed _ _ (by rw [hX]; exact hfix), hX]
  · rw [transferStep_eq_of_not_mem cb s t st ht]

theorem devStep_user_of_flag (f : Nat → CbResult) (s : PollState StreamUser) (e : DevEvent)
    (h : s.user.1 = true) : (devStep f s e).user = s.user := by
  cases e with
  | complete t st =>
    apply transferStep_user_fixed
    simp [streamCb, h]
  | stopRequest =>
    show (true, s.user.2) = s.user
    rw [← h]

theorem runDev_user_of_flag (f : Nat → CbResult) (s : PollState StreamUser)
    (es : List DevEvent) (h : s.user.1 = true) : (runDev f s es).user = s.user := by
  induction es generalizing s with
  | nil => rfl
  | cons e es ih =>
    rw [runDev_cons]
    have h1 : (devStep f s e).user = s.user := devStep_user_of_flag f s e h
    rw [ih (devStep f s e) (by rw [h1]; exact h), h1]

theorem outcome_none_of_mem (s : PollState σ) (h : StateInv s) {t : Nat}
    (ht : t ∈ s.pending) : s.outcome = none := by
  cases ho : s.outcome with
  | none => rfl
  | some r =>
    have hp : s.pending = [] := h.2 (by rw [ho]; rfl)
    rw [hp] at ht
    exact absurd ht (List.not_mem_nil t)

theorem devStep_settles_after_stop (f : Nat → CbResult) (s : PollState StreamUser)
    (t : Nat) (st : Option Err) (hc : CoreInv s) (hflag : s.user.1 = true)
    (ht : t ∈ s.pending) (hns : s.settled = false) :
    (devStep f s (DevEvent.complete t st)).settled = true := by
  show (transferStep (streamCb f) s t st).settled = true
  rw [transferStep_eq_of_mem _ s t st ht, doSettle_settled, stepResubmit_settled]
  cases heff : effectiveError s st with
  | some e =>
    have hrf : s.rejected = false := (settled_false_flags s hc hns).1
    rw [stepReject_some_of_not_rejected s e hrf]
    have h2 : (stepErase t (wrapReject e s)).settled = true := by simp
    rw [stepCallback_of_settled _ _ h2]
    exact h2
  | none =>
    rw [stepReject_none]
    have hXs : (stepErase t s).settled = false := by simpa using hns
    have hcb : streamCb f (stepErase t s).user = (CbResult.stop, (stepErase t s).user) := by
      show streamCb f s.user = (CbResult.stop, s.user)
      simp [streamCb, hflag]
    rw [stepCallback_stop _ _ hXs hcb]
    simp

/-! ### The claims -/

/-- Claim C1 (amended): whenever the stream body of a `_stream` run ends,
normally or with an error, the return-to-OFF mode request is always
issued; if the OFF request succeeds the operation settles with the
stream body's outcome, but if the OFF request itself fails with `g`, the
operation rejects with `g` — the OFF failure replaces the stream's own
outcome (JavaScript `try`/`finally` semantics). -/
theorem claim_C1 (mode : TransceiverMode) (isOut : Bool) (count : Nat) (f : Nat → CbResult)
    (setupR : Option Err) (events : List DevEvent) (offR : Option Err) (po : Except Err Unit)
    (h : (runDev f (streamPollInit isOut count f setupR) events).outcome = some po) :
    ∃ ex, streamRunFull mode isOut count f setupR events offR = some ex ∧
      TransceiverMode.off ∈ ex.modeRequests ∧
      ex.result = tryFinallyOff po offR ∧
      (∀ g, offR = some g → ex.result = Except.error g) ∧
      (offR = none → ex.result = po) := by
  have hfull : streamRunFull mode isOut count f setupR events offR =
      some { modeRequests :=
               (if pollSetupRan isOut (streamCb f) count (false, 0) then [mode] else []) ++
                 [TransceiverMode.off],
             result := tryFinallyOff po offR } := by
    unfold streamRunFull
    rw [h]
  refine ⟨_, hfull, ?_, rfl, ?_, ?_⟩
  · exact List.mem_append_right _ (by simp)
  · intro g hg
    rw [hg]
    rfl
  · intro hg
    rw [hg]
    rfl

/-- Claim C1 witness: a concrete receive stream that stops cleanly, with
a succeeding OFF request. -/
theorem claim_C1_witness :
    (runDev (fun _ => CbResult.stop) (streamPollInit false 1 (fun _ => CbResult.stop) none)
        [DevEvent.complete 0 none]).outcome = some (Except.ok ()) ∧
    ∃ ex, streamRunFull TransceiverMode.receive false 1 (fun _ => CbResult.stop) none
        [DevEvent.complete 0 none] none = some ex ∧
      TransceiverMode.off ∈ ex.modeRequests ∧
      ex.result = tryFinallyOff (Except.ok ()) none ∧
      (∀ g, (none : Option Err) = some g → ex.result = Except.error g) ∧
      ((none : Option Err) = none → ex.result = Except.ok ()) :=
  ⟨rfl, claim_C1 TransceiverMode.receive false 1 (fun _ => CbResult.stop) none
    [DevEvent.complete 0 none] none (Except.ok ()) rfl⟩

/-- Claim C1 counterexample: a stream that fails with `transport 5` while
the OFF request fails with `transport 7` makes the operation reject with
`transport 7`, not with the original stream error `transport 5` as the
claim asserts. -/
theorem claim_C1_counterexample :
    (streamRunFull TransceiverMode.receive false 1 (fun _ => CbResult.cont) none
        [DevEvent.complete 0 (some (Err.transport 5))] (some (Err.transport 7))).map
        StreamExec.result = some (Except.error (Err.transport 7)) ∧
    Except.error (Err.transport 7) ≠ (Except.error (Err.transport 5) : Except Err Unit) := by
  constructor
  · rfl
  · intro hcontra
    injection hcontra with hv
    exact absurd hv (by decide)

/-- Claim C2: with an OUT stream (`transmit`) whose callback signals
stop on the first pre-fill invocation, zero transfers are ever submitted
(as the claim states) — but the promise never settles, under any
sequence of events, contradicting the claim that the stream "ends
immediately with success"; moreover, if stop is signalled on a later
pre-fill invocation, the already-filled buffers ARE submitted. -/
theorem claim_C2 :
    ((streamPollInit true 4 (fun _ => CbResult.stop) none).submitted = 0 ∧
     (streamPollInit true 4 (fun _ => CbResult.stop) none).pending = [] ∧
     (∀ es, (runDev (fun _ => CbResult.stop)
        (streamPollInit true 4 (fun _ => CbResult.stop) none) es).outcome = none)) ∧
    (streamPollInit true 4 (fun n => if n = 0 then CbResult.cont else CbResult.stop)
        none).submitted = 1 := by
  refine ⟨⟨rfl, rfl, ?_⟩, rfl⟩
  intro es
  have h := runDev_of_no_pending (fun _ => CbResult.stop)
    (streamPollInit true 4 (fun _ => CbResult.stop) none) es rfl
  rw [h.1]
  rfl

/-- Claim C6 (amended): on a device with an active stream, `transmit`,
`receive` and `cpld_write` reject immediately with `BUSY`, before any
I/O and leaving the device unchanged (the result is `(d, BUSY)` for
every possible body); `sweepReceive` does so too when the firmware API
version is at least `0x0104`, but on older firmware it rejects with
`USB_API_VERSION` instead (its version check runs before the busy
check), still before any I/O and with no state change. -/
theorem claim_C6 {α : Type} (d : HackrfDevice)
    (body : HackrfDevice → HackrfDevice × Except Err α) (h : d.streaming = true) :
    transmitOp d body = (d, Except.error busyError) ∧
    receiveOp d body = (d, Except.error busyError) ∧
    cpldWriteOp d body = (d, Except.error busyError) ∧
    sweepReceiveOp d body =
      (d, Except.error (if d.usbApiVersion < 0x0104 then usbApiVersionError else busyError)) := by
  have hl : lockStream d body = (d, Except.error busyError) := by
    unfold lockStream
    rw [if_pos h]
  refine ⟨hl, hl, hl, ?_⟩
  unfold sweepReceiveOp
  by_cases hv : d.usbApiVersion < 0x0104
  · rw [if_pos hv, if_pos hv]
  · rw [if_neg hv, if_neg hv, hl]

/-- Claim C6 witness: a busy device with current firmware. -/
theorem claim_C6_witness :
    (HackrfDevice.mk true false 0x0104).streaming = true ∧
    (transmitOp (HackrfDevice.mk true false 0x0104) (fun d => (d, Except.ok ())) =
      (HackrfDevice.mk true false 0x0104, Except.error busyError) ∧
     receiveOp (HackrfDevice.mk true false 0x0104) (fun d => (d, Except.ok ())) =
      (HackrfDevice.mk true false 0x0104, Except.error busyError) ∧
     cpldWriteOp (HackrfDevice.mk true false 0x0104) (fun d => (d, Except.ok ())) =
      (HackrfDevice.mk true false 0x0104, Except.error busyError) ∧
     sweepReceiveOp (HackrfDevice.mk true false 0x0104) (fun d => (d, Except.ok ())) =
      (HackrfDevice.mk true false 0x0104,
        Except.error (if (HackrfDevice.mk true false 0x0104).usbApiVersion < 0x0104
          then usbApiVersionError else busyError))) :=
  ⟨rfl, claim_C6 (HackrfDevice.mk true false 0x0104) (fun d => (d, Except.ok ())) rfl⟩

/-- Claim C6 counterexample: a busy device with old firmware
(`usbApiVersion = 0x0100`): `sweepReceive` rejects with
`USB_API_VERSION`, not `BUSY`. -/
theorem claim_C6_counterexample :
    (sweepReceiveOp (HackrfDevice.mk true false 0x0100)
        (fun d => (d, (Except.ok () : Except Err Unit)))).2 =
      Except.error usbApiVersionError ∧
    usbApiVersionError ≠ busyError := by
  constructor
  · rfl
  · decide

/-- Claim C10: `_stream` resets `_stopRequested` to `false` before
streaming begins, so a `requestStop()` issued while no stream is active
has no effect on a subsequently started stream: starting a stream on
`requestStop d` behaves identically to starting it on `d`. -/
theorem claim_C10 (d : HackrfDevice) (isOut : Bool) (count : Nat) (f : Nat → CbResult)
    (setupR : Option Err) (h : d.streaming = false) :
    streamStart (requestStop d) isOut count f setupR = streamStart d isOut count f setupR := by
  unfold streamStart requestStop
  rw [h]

/-- Claim C10 witness: a concrete idle device. -/
theorem claim_C10_witness :
    (HackrfDevice.mk false false 0x0100).streaming = false ∧
    streamStart (requestStop (HackrfDevice.mk false false 0x0100)) false 1
        (fun _ => CbResult.cont) none =
      streamStart (HackrfDevice.mk false false 0x0100) false 1 (fun _ => CbResult.cont) none :=
  ⟨rfl, claim_C10 (HackrfDevice.mk false false 0x0100) false 1 (fun _ => CbResult.cont) none rfl⟩


/-- Claim C5: the promise returned by `poll` (and hence by
`transmit`/`receive`/`sweepReceive`) is resolved or rejected only in
states where the set of pending transfers is empty: every submitted
transfer has settled before the caller observes the outcome.  Stated
both for a bare `poll` run with an arbitrary callback and for a
device-level `_stream` run with interleaved `requestStop()` calls. -/
theorem claim_C5 :
    (∀ (τ : Type) (cb : τ → CbResult × τ) (isOut : Bool) (count : Nat) (u0 : τ)
        (setupR : Option Err) (events : List (Nat × Option Err)) (r : Except Err Unit),
      (runPoll cb (initPoll isOut count cb u0 setupR) events).outcome = some r →
      (runPoll cb (initPoll isOut count cb u0 setupR) events).pending = []) ∧
    (∀ (f : Nat → CbResult) (isOut : Bool) (count : Nat) (setupR : Option Err)
        (events : List DevEvent) (r : Except Err Unit),
      (runDev f (streamPollInit isOut count f setupR) events).outcome = some r →
      (runDev f (streamPollInit isOut count f setupR) events).pending = []) := by
  constructor
  · intro τ cb isOut count u0 setupR events r h
    exact (stateInv_runPoll cb _ events (stateInv_initPoll isOut count cb u0 setupR)).2
      (by rw [h]; rfl)
  · intro f isOut count setupR events r h
    have h2 : (runDev f (initPoll isOut count (streamCb f) (false, 0) setupR) events).outcome =
        some r := h
    exact (stateInv_runDev f _ events
      (stateInv_initPoll isOut count (streamCb f) (false, 0) setupR)).2 (by rw [h2]; rfl)

/-- Claim C5 witness: a concrete receive run that resolves; its pending
set is empty at settlement. -/
theorem claim_C5_witness :
    (runPoll (countCb (fun _ => CbResult.stop))
        (initPoll false 1 (countCb (fun _ => CbResult.stop)) 0 none) [(0, none)]).outcome =
      some (Except.ok ()) ∧
    (runPoll (countCb (fun _ => CbResult.stop))
        (initPoll false 1 (countCb (fun _ => CbResult.stop)) 0 none) [(0, none)]).pending = [] :=
  ⟨rfl, claim_C5.1 Nat (countCb (fun _ => CbResult.stop)) false 1 0 none [(0, none)]
    (Except.ok ()) rfl⟩

/-- Claim C8: once cancellation has been requested (`cancelled` is set),
a pending transfer completing with the `LIBUSB_TRANSFER_CANCELLED`
status is benign: it is not recorded as an error (`rejected` and
`reason` are unchanged), the callback is not invoked on it, and if no
error was recorded before, the outcome this completion may produce is
success, not failure. -/
theorem claim_C8 {τ : Type} (cb : τ → CbResult × τ) (s : PollState τ) (t : Nat)
    (hInv : StateInv s) (hc : s.cancelled = true) (ht : t ∈ s.pending) :
    (transferStep cb s t (some (Err.transport LIBUSB_TRANSFER_CANCELLED))).rejected =
      s.rejected ∧
    (transferStep cb s t (some (Err.transport LIBUSB_TRANSFER_CANCELLED))).reason = s.reason ∧
    (transferStep cb s t (some (Err.transport LIBUSB_TRANSFER_CANCELLED))).calls = s.calls ∧
    (s.rejected = false →
      ∀ r, (transferStep cb s t (some (Err.transport LIBUSB_TRANSFER_CANCELLED))).outcome =
          some r → r = Except.ok ()) := by
  have hs : s.settled = true := hInv.1.2.2.1 hc
  have heff : effectiveError s (some (Err.transport LIBUSB_TRANSFER_CANCELLED)) = none := by
    simp [effectiveError, isCancelErrno, hc]
  rw [transferStep_eq_of_mem cb s t _ ht, heff, stepReject_none]
  have h2 : (stepErase t s).settled = true := by simpa using hs
  rw [stepCallback_of_settled _ _ h2, stepResubmit_of_settled _ _ h2]
  refine ⟨by simp, by simp, by simp, ?_⟩
  intro hrf r hr
  rcases doSettle_outcome_cases (stepErase t s) with hcase | ⟨hp, hcase⟩
  · rw [hcase] at hr
    rw [stepErase_outcome, outcome_none_of_mem s hInv ht] at hr
    exact nomatch hr
  · rw [hcase] at hr
    injection hr with hv
    rw [← hv]
    simp [hrf]

/-- Claim C8 witness: the state of an IN stream after a clean stop (so
cancellation was requested) with transfer 1 still pending, completing
with cancelled status. -/
theorem claim_C8_witness :
    StateInv (runPoll (countCb (fun _ => CbResult.stop))
        (initPoll false 2 (countCb (fun _ => CbResult.stop)) 0 none) [(0, none)]) ∧
    (runPoll (countCb (fun _ => CbResult.stop))
        (initPoll false 2 (countCb (fun _ => CbResult.stop)) 0 none) [(0, none)]).cancelled =
      true ∧
    1 ∈ (runPoll (countCb (fun _ => CbResult.stop))
        (initPoll false 2 (countCb (fun _ => CbResult.stop)) 0 none) [(0, none)]).pending ∧
    ((transferStep (countCb (fun _ => CbResult.stop))
        (runPoll (countCb (fun _ => CbResult.stop))
          (initPoll false 2 (countCb (fun _ => CbResult.stop)) 0 none) [(0, none)]) 1
        (some (Err.transport LIBUSB_TRANSFER_CANCELLED))).rejected =
      (runPoll (countCb (fun _ => CbResult.stop))
        (initPoll false 2 (countCb (fun _ => CbResult.stop)) 0 none) [(0, none)]).rejected ∧
     (transferStep (countCb (fun _ => CbResult.stop))
        (runPoll (countCb (fun _ => CbResult.stop))
          (initPoll false 2 (countCb (fun _ => CbResult.stop)) 0 none) [(0, none)]) 1
        (some (Err.transport LIBUSB_TRANSFER_CANCELLED))).reason =
      (runPoll (countCb (fun _ => CbResult.stop))
        (initPoll false 2 (countCb (fun _ => CbResult.stop)) 0 none) [(0, none)]).reason ∧
     (transferStep (countCb (fun _ => CbResult.stop))
        (runPoll (countCb (fun _ => CbResult.stop))
          (initPoll false 2 (countCb (fun _ => CbResult.stop)) 0 none) [(0, none)]) 1
        (some (Err.transport LIBUSB_TRANSFER_CANCELLED))).calls =
      (runPoll (countCb (fun _ => CbResult.stop))
        (initPoll false 2 (countCb (fun _ => CbResult.stop)) 0 none) [(0, none)]).calls ∧
     ((runPoll (countCb (fun _ => CbResult.stop))
          (initPoll false 2 (countCb (fun _ => CbResult.stop)) 0 none) [(0, none)]).rejected =
        false →
       ∀ r, (transferStep (countCb (fun _ => CbResult.stop))
          (runPoll (countCb (fun _ => CbResult.stop))
            (initPoll false 2 (countCb (fun _ => CbResult.stop)) 0 none) [(0, none)]) 1
          (some (Err.transport LIBUSB_TRANSFER_CANCELLED))).outcome = some r →
         r = Except.ok ())) :=
  ⟨by decide, by decide, by decide,
    claim_C8 (countCb (fun _ => CbResult.stop))
      (runPoll (countCb (fun _ => CbResult.stop))
        (initPoll false 2 (countCb (fun _ => CbResult.stop)) 0 none) [(0, none)]) 1
      (by decide) (by decide) (by decide)⟩


/-- Claim C4: a pending transfer completing with a real (non-benign)
transport error while no error was recorded yet causes: the error to be
captured (`rejected` set, `reason` stores it), a cancellation to be
issued for every pending transfer, and — over any continuation of the
run — the stored reason never changes (later errors are discarded) and
the promise, once it settles, rejects with exactly that first error and
only with no transfer pending. -/
theorem claim_C4 {τ : Type} (cb : τ → CbResult × τ) (s : PollState τ) (t : Nat)
    (st : Option Err) (e : Err) (hInv : StateInv s) (ht : t ∈ s.pending)
    (hrej : s.rejected = false) (heff : effectiveError s st = some e) :
    (transferStep cb s t st).rejected = true ∧
    (transferStep cb s t st).reason = some e ∧
    (∀ x ∈ s.pending, x ∈ (transferStep cb s t st).cancelIssued) ∧
    (∀ es, (runPoll cb (transferStep cb s t st) es).reason = some e ∧
      (∀ r, (runPoll cb (transferStep cb s t st) es).outcome = some r →
        r = Except.error e ∧ (runPoll cb (transferStep cb s t st) es).pending = [])) := by
  have h2 : (stepErase t (wrapReject e s)).settled = true := by simp
  have heq : transferStep cb s t st = doSettle (stepErase t (wrapReject e s)) := by
    rw [transferStep_eq_of_mem cb s t st ht, heff, stepReject_some_of_not_rejected s e hrej,
      stepCallback_of_settled _ _ h2, stepResubmit_of_settled _ _ h2]
  have hrej1 : (transferStep cb s t st).rejected = true := by rw [heq]; simp
  have hre1 : (transferStep cb s t st).reason = some e := by rw [heq]; simp
  have hInv1 : StateInv (transferStep cb s t st) := stateInv_transferStep cb s t st hInv
  have hout1 : ∀ r, (transferStep cb s t st).outcome = some r → r = Except.error e := by
    intro r hr
    rw [heq] at hr
    rcases doSettle_outcome_cases (stepErase t (wrapReject e s)) with hcase | ⟨hp, hcase⟩
    · rw [hcase] at hr
      rw [stepErase_outcome, wrapReject_outcome, outcome_none_of_mem s hInv ht] at hr
      exact nomatch hr
    · rw [hcase] at hr
      injection hr with hv
      rw [← hv]
      simp
  refine ⟨hrej1, hre1, ?_, ?_⟩
  · intro x hx
    rw [heq, doSettle_cancelIssued, stepErase_cancelIssued]
    exact wrapReject_pending_cancelIssued e s hInv.1.2.2.2.1 x hx
  · intro es
    obtain ⟨g1, g2, g3, g4⟩ := runPoll_rejected_run cb _ es e hInv1 hrej1 hre1 hout1
    exact ⟨g3, fun r hro => ⟨g4 r hro, g1.2 (by rw [hro]; rfl)⟩⟩

/-- Claim C4 witness: an IN stream with two pending transfers; transfer
0 completes with transport error 5. -/
theorem claim_C4_witness :
    StateInv (initPoll false 2 (countCb (fun _ => CbResult.cont)) 0 none) ∧
    0 ∈ (initPoll false 2 (countCb (fun _ => CbResult.cont)) 0 none).pending ∧
    (initPoll false 2 (countCb (fun _ => CbResult.cont)) 0 none).rejected = false ∧
    effectiveError (initPoll false 2 (countCb (fun _ => CbResult.cont)) 0 none)
      (some (Err.transport 5)) = some (Err.transport 5) ∧
    ((transferStep (countCb (fun _ => CbResult.cont))
        (initPoll false 2 (countCb (fun _ => CbResult.cont)) 0 none) 0
        (some (Err.transport 5))).rejected = true ∧
     (transferStep (countCb (fun _ => CbResult.cont))
        (initPoll false 2 (countCb (fun _ => CbResult.cont)) 0 none) 0
        (some (Err.transport 5))).reason = some (Err.transport 5) ∧
     (∀ x ∈ (initPoll false 2 (countCb (fun _ => CbResult.cont)) 0 none).pending,
        x ∈ (transferStep (countCb (fun _ => CbResult.cont))
          (initPoll false 2 (countCb (fun _ => CbResult.cont)) 0 none) 0
          (some (Err.transport 5))).cancelIssued) ∧
     (∀ es, (runPoll (countCb (fun _ => CbResult.cont))
          (transferStep (countCb (fun _ => CbResult.cont))
            (initPoll false 2 (countCb (fun _ => CbResult.cont)) 0 none) 0
            (some (Err.transport 5))) es).reason = some (Err.transport 5) ∧
       (∀ r, (runPoll (countCb (fun _ => CbResult.cont))
            (transferStep (countCb (fun _ => CbResult.cont))
              (initPoll false 2 (countCb (fun _ => CbResult.cont)) 0 none) 0
              (some (Err.transport 5))) es).outcome = some r →
         r = Except.error (Err.transport 5) ∧
         (runPoll (countCb (fun _ => CbResult.cont))
            (transferStep (countCb (fun _ => CbResult.cont))
              (initPoll false 2 (countCb (fun _ => CbResult.cont)) 0 none) 0
              (some (Err.transport 5))) es).pending = []))) :=
  ⟨by decide, by decide, by decide, by decide,
    claim_C4 (countCb (fun _ => CbResult.cont))
      (initPoll false 2 (countCb (fun _ => CbResult.cont)) 0 none) 0
      (some (Err.transport 5)) (Err.transport 5) (by decide) (by decide) (by decide)
      (by decide)⟩

/-- Claim C9: when the user callback throws on a completed transfer and
no earlier error was recorded, the exception becomes the failure reason,
cancellation is issued for every other pending transfer, the callback is
never invoked again, and the promise, once it settles, rejects with that
exception and only with no transfer pending. -/
theorem claim_C9 {τ : Type} (cb : τ → CbResult × τ) (s : PollState τ) (t : Nat)
    (st : Option Err) (ex : Err) (u2 : τ) (hInv : StateInv s) (ht : t ∈ s.pending)
    (hns : s.settled = false) (heff : effectiveError s st = none)
    (hcb : cb s.user = (CbResult.throws ex, u2)) :
    (transferStep cb s t st).rejected = true ∧
    (transferStep cb s t st).reason = some ex ∧
    (transferStep cb s t st).cancelled = true ∧
    (∀ x ∈ s.pending.erase t, x ∈ (transferStep cb s t st).cancelIssued) ∧
    (∀ es, (runPoll cb (transferStep cb s t st) es).calls = (transferStep cb s t st).calls ∧
      (runPoll cb (transferStep cb s t st) es).reason = some ex ∧
      (∀ r, (runPoll cb (transferStep cb s t st) es).outcome = some r →
        r = Except.error ex ∧ (runPoll cb (transferStep cb s t st) es).pending = [])) := by
  have hXs : (stepErase t s).settled = false := by simpa using hns
  have hXcb : cb (stepErase t s).user = (CbResult.throws ex, u2) := hcb
  have heq : transferStep cb s t st =
      doSettle (wrapReject ex
        { stepErase t s with user := u2, calls := (stepErase t s).calls + 1 }) := by
    rw [transferStep_eq_of_mem cb s t st ht, heff, stepReject_none,
      stepCallback_throws _ _ hXs hXcb,
      stepResubmit_of_settled _ _ (wrapReject_settled ex _)]
  have hrej1 : (transferStep cb s t st).rejected = true := by rw [heq]; simp
  have hre1 : (transferStep cb s t st).reason = some ex := by rw [heq]; simp
  have hset1 : (transferStep cb s t st).settled = true := by rw [heq]; simp
  have hInv1 : StateInv (transferStep cb s t st) := stateInv_transferStep cb s t st hInv
  have hout1 : ∀ r, (transferStep cb s t st).outcome = some r → r = Except.error ex := by
    intro r hr
    rw [heq] at hr
    rcases doSettle_outcome_cases
        (wrapReject ex { stepErase t s with user := u2, calls := (stepErase t s).calls + 1 })
      with hcase | ⟨hp, hcase⟩
    · rw [hcase, wrapReject_outcome] at hr
      have hnone : s.outcome = none := outcome_none_of_mem s hInv ht
      have hr2 : s.outcome = some r := hr
      rw [hnone] at hr2
      exact nomatch hr2
    · rw [hcase] at hr
      injection hr with hv
      rw [← hv]
      simp
  refine ⟨hrej1, hre1, by rw [heq]; simp, ?_, ?_⟩
  · intro x hx
    rw [heq, doSettle_cancelIssued]
    refine wrapReject_pending_cancelIssued ex
      { stepErase t s with user := u2, calls := (stepErase t s).calls + 1 } ?_ x hx
    intro hc y hy
    exact hInv.1.2.2.2.1 hc y (List.mem_of_mem_erase hy)
  · intro es
    obtain ⟨g1, g2, g3, g4⟩ :=
      runPoll_rejected_run cb (transferStep cb s t st) es ex hInv1 hrej1 hre1 hout1
    obtain ⟨k1, k2, k3, k4⟩ := runPoll_of_settled cb (transferStep cb s t st) es hset1
    exact ⟨k2, g3, fun r hro => ⟨g4 r hro, g1.2 (by rw [hro]; rfl)⟩⟩

/-- Claim C9 witness: an IN stream with two pending transfers; transfer
0 completes successfully but the callback throws exception 9. -/
theorem claim_C9_witness :
    StateInv (initPoll false 2 (countCb (fun _ => CbResult.throws (Err.exception 9))) 0 none) ∧
    0 ∈ (initPoll false 2 (countCb (fun _ => CbResult.throws (Err.exception 9))) 0 none).pending ∧
    (initPoll false 2 (countCb (fun _ => CbResult.throws (Err.exception 9))) 0 none).settled =
      false ∧
    effectiveError (initPoll false 2 (countCb (fun _ => CbResult.throws (Err.exception 9))) 0 none)
      none = none ∧
    countCb (fun _ => CbResult.throws (Err.exception 9))
      (initPoll false 2 (countCb (fun _ => CbResult.throws (Err.exception 9))) 0 none).user =
      (CbResult.throws (Err.exception 9), 1) ∧
    ((transferStep (countCb (fun _ => CbResult.throws (Err.exception 9)))
        (initPoll false 2 (countCb (fun _ => CbResult.throws (Err.exception 9))) 0 none) 0
        none).rejected = true ∧
     (transferStep (countCb (fun _ => CbResult.throws (Err.exception 9)))
        (initPoll false 2 (countCb (fun _ => CbResult.throws (Err.exception 9))) 0 none) 0
        none).reason = some (Err.exception 9) ∧
     (transferStep (countCb (fun _ => CbResult.throws (Err.exception 9)))
        (initPoll false 2 (countCb (fun _ => CbResult.throws (Err.exception 9))) 0 none) 0
        none).cancelled = true ∧
     (∀ x ∈ (initPoll false 2 (countCb (fun _ => CbResult.throws (Err.exception 9))) 0
          none).pending.erase 0,
        x ∈ (transferStep (countCb (fun _ => CbResult.throws (Err.exception 9)))
          (initPoll false 2 (countCb (fun _ => CbResult.throws (Err.exception 9))) 0 none) 0
          none).cancelIssued) ∧
     (∀ es, (runPoll (countCb (fun _ => CbResult.throws (Err.exception 9)))
          (transferStep (countCb (fun _ => CbResult.throws (Err.exception 9)))
            (initPoll false 2 (countCb (fun _ => CbResult.throws (Err.exception 9))) 0 none) 0
            none) es).calls =
        (transferStep (countCb (fun _ => CbResult.throws (Err.exception 9)))
          (initPoll false 2 (countCb (fun _ => CbResult.throws (Err.exception 9))) 0 none) 0
          none).calls ∧
       (runPoll (countCb (fun _ => CbResult.throws (Err.exception 9)))
          (transferStep (countCb (fun _ => CbResult.throws (Err.exception 9)))
            (initPoll false 2 (countCb (fun _ => CbResult.throws (Err.exception 9))) 0 none) 0
            none) es).reason = some (Err.exception 9) ∧
       (∀ r, (runPoll (countCb (fun _ => CbResult.throws (Err.exception 9)))
            (transferStep (countCb (fun _ => CbResult.throws (Err.exception 9)))
              (initPoll false 2 (countCb (fun _ => CbResult.throws (Err.exception 9))) 0 none) 0
              none) es).outcome = some r →
         r = Except.error (Err.exception 9) ∧
         (runPoll (countCb (fun _ => CbResult.throws (Err.exception 9)))
            (transferStep (countCb (fun _ => CbResult.throws (Err.exception 9)))
              (initPoll false 2 (countCb (fun _ => CbResult.throws (Err.exception 9))) 0 none) 0
              none) es).pending = []))) :=
  ⟨by decide, by decide, by decide, by decide, by decide,
    claim_C9 (countCb (fun _ => CbResult.throws (Err.exception 9)))
      (initPoll false 2 (countCb (fun _ => CbResult.throws (Err.exception 9))) 0 none) 0 none
      (Err.exception 9) 1 (by decide) (by decide) (by decide) (by decide) (by decide)⟩


/-- Claim C3 counterexample: in an OUT stream (`transmit`) with two
pending transfers, the callback signals stop on the completion of
transfer 0; transfer 1 is still pending yet no cancellation was ever
issued (`wrapResolve` only calls `tryCancel` for IN streams),
contradicting "a cancellation is issued for every other currently
pending transfer ... in either direction". -/
theorem claim_C3_counterexample :
    (runPoll (countCb (fun n => if n < 2 then CbResult.cont else CbResult.stop))
        (initPoll true 2 (countCb (fun n => if n < 2 then CbResult.cont else CbResult.stop)) 0
          none) [(0, none)]).settled = true ∧
    1 ∈ (runPoll (countCb (fun n => if n < 2 then CbResult.cont else CbResult.stop))
        (initPoll true 2 (countCb (fun n => if n < 2 then CbResult.cont else CbResult.stop)) 0
          none) [(0, none)]).pending ∧
    (runPoll (countCb (fun n => if n < 2 then CbResult.cont else CbResult.stop))
        (initPoll true 2 (countCb (fun n => if n < 2 then CbResult.cont else CbResult.stop)) 0
          none) [(0, none)]).cancelIssued = [] := by
  decide

/-- Claim C3 (amended): when the user callback signals stop on a
completed buffer, that buffer is not resubmitted (and no new submission
occurs), the stream settles cleanly, the callback is never invoked
again, and the operation settles only with no transfer pending,
resolving successfully provided the remaining completions carry no
transport error; a cancellation is issued for every other currently
pending transfer for IN-direction streams only — for OUT-direction
streams no cancellation is issued and the pending transfers are left to
complete on their own. -/
theorem claim_C3 {τ : Type} (cb : τ → CbResult × τ) (s : PollState τ) (t : Nat)
    (st : Option Err) (u2 : τ) (hInv : StateInv s) (ht : t ∈ s.pending)
    (hns : s.settled = false) (heff : effectiveError s st = none)
    (hcb : cb s.user = (CbResult.stop, u2)) :
    (t ∉ (transferStep cb s t st).pending ∧
      (transferStep cb s t st).submitted = s.submitted) ∧
    ((transferStep cb s t st).settled = true ∧ (transferStep cb s t st).rejected = false) ∧
    (s.isOut = false →
      ∀ x ∈ s.pending.erase t, x ∈ (transferStep cb s t st).cancelIssued) ∧
    (s.isOut = true → (transferStep cb s t st).cancelled = false ∧
      (transferStep cb s t st).cancelIssued = s.cancelIssued) ∧
    (∀ es, (runPoll cb (transferStep cb s t st) es).calls = (transferStep cb s t st).calls) ∧
    (∀ es, (∀ ev ∈ es, ev.2 = none) →
      ∀ r, (runPoll cb (transferStep cb s t st) es).outcome = some r →
        r = Except.ok () ∧ (runPoll cb (transferStep cb s t st) es).pending = []) := by
  obtain ⟨hrf, hcf⟩ := settled_false_flags s hInv.1 hns
  have hXs : (stepErase t s).settled = false := by simpa using hns
  have hXcb : cb (stepErase t s).user = (CbResult.stop, u2) := hcb
  have heq : transferStep cb s t st =
      doSettle (wrapResolve
        { stepErase t s with user := u2, calls := (stepErase t s).calls + 1 }) := by
    rw [transferStep_eq_of_mem cb s t st ht, heff, stepReject_none,
      stepCallback_stop _ _ hXs hXcb,
      stepResubmit_of_settled _ _ (wrapResolve_settled _)]
  have hset1 : (transferStep cb s t st).settled = true := by rw [heq]; simp
  have hrej1 : (transferStep cb s t st).rejected = false := by rw [heq]; simpa using hrf
  have hpend1 : (transferStep cb s t st).pending = s.pending.erase t := by rw [heq]; simp
  have hInv1 : StateInv (transferStep cb s t st) := stateInv_transferStep cb s t st hInv
  have hout1 : ∀ r, (transferStep cb s t st).outcome = some r → r = Except.ok () := by
    intro r hr
    rw [heq] at hr
    rcases doSettle_outcome_cases
        (wrapResolve { stepErase t s with user := u2, calls := (stepErase t s).calls + 1 })
      with hcase | ⟨hp, hcase⟩
    · rw [hcase, wrapResolve_outcome] at hr
      have hr2 : s.outcome = some r := hr
      rw [outcome_none_of_mem s hInv ht] at hr2
      exact nomatch hr2
    · rw [hcase] at hr
      injection hr with hv
      rw [← hv]
      simp [hrf]
  refine ⟨⟨?_, ?_⟩, ⟨hset1, hrej1⟩, ?_, ?_, ?_, ?_⟩
  · rw [hpend1]
    intro hmem
    exact absurd ((hInv.1.1.mem_erase_iff).mp hmem).1 (by simp)
  · rw [heq]; simp
  · intro hio x hx
    rw [heq, doSettle_cancelIssued]
    refine wrapResolve_cancelIssued_of_not_isOut
      { stepErase t s with user := u2, calls := (stepErase t s).calls + 1 }
      (by simpa using hio) ?_ x hx
    intro hc y hy
    exact hInv.1.2.2.2.1 hc y (List.mem_of_mem_erase hy)
  · intro hio
    constructor
    · rw [heq, doSettle_cancelled, wrapResolve_cancelled_of_isOut
        { stepErase t s with user := u2, calls := (stepErase t s).calls + 1 } hio]
      exact hcf
    · rw [heq, doSettle_cancelIssued, wrapResolve_cancelIssued_of_isOut
        { stepErase t s with user := u2, calls := (stepErase t s).calls + 1 } hio]
      rfl
  · intro es
    exact (runPoll_of_settled cb (transferStep cb s t st) es hset1).2.1
  · intro es hes r hro
    obtain ⟨g1, g2, g3, g4⟩ :=
      runPoll_resolved_run cb (transferStep cb s t st) es hInv1 hset1 hrej1 hout1 hes
    exact ⟨g4 r hro, g1.2 (by rw [hro]; rfl)⟩

/-- Claim C3 witness: an IN stream with two pending transfers whose
callback stops on the first completion. -/
theorem claim_C3_witness :
    StateInv (initPoll false 2 (countCb (fun _ => CbResult.stop)) 0 none) ∧
    0 ∈ (initPoll false 2 (countCb (fun _ => CbResult.stop)) 0 none).pending ∧
    (initPoll false 2 (countCb (fun _ => CbResult.stop)) 0 none).settled = false ∧
    effectiveError (initPoll false 2 (countCb (fun _ => CbResult.stop)) 0 none) none = none ∧
    countCb (fun _ => CbResult.stop)
      (initPoll false 2 (countCb (fun _ => CbResult.stop)) 0 none).user =
      (CbResult.stop, 1) ∧
    ((0 ∉ (transferStep (countCb (fun _ => CbResult.stop))
        (initPoll false 2 (countCb (fun _ => CbResult.stop)) 0 none) 0 none).pending ∧
      (transferStep (countCb (fun _ => CbResult.stop))
        (initPoll false 2 (countCb (fun _ => CbResult.stop)) 0 none) 0 none).submitted =
        (initPoll false 2 (countCb (fun _ => CbResult.stop)) 0 none).submitted) ∧
     ((transferStep (countCb (fun _ => CbResult.stop))
        (initPoll false 2 (countCb (fun _ => CbResult.stop)) 0 none) 0 none).settled = true ∧
      (transferStep (countCb (fun _ => CbResult.stop))
        (initPoll false 2 (countCb (fun _ => CbResult.stop)) 0 none) 0 none).rejected =
        false) ∧
     ((initPoll false 2 (countCb (fun _ => CbResult.stop)) 0 none).isOut = false →
       ∀ x ∈ (initPoll false 2 (countCb (fun _ => CbResult.stop)) 0 none).pending.erase 0,
         x ∈ (transferStep (countCb (fun _ => CbResult.stop))
           (initPoll false 2 (countCb (fun _ => CbResult.stop)) 0 none) 0
           none).cancelIssued) ∧
     ((initPoll false 2 (countCb (fun _ => CbResult.stop)) 0 none).isOut = true →
       (transferStep (countCb (fun _ => CbResult.stop))
         (initPoll false 2 (countCb (fun _ => CbResult.stop)) 0 none) 0 none).cancelled =
           false ∧
       (transferStep (countCb (fun _ => CbResult.stop))
         (initPoll false 2 (countCb (fun _ => CbResult.stop)) 0 none) 0 none).cancelIssued =
         (initPoll false 2 (countCb (fun _ => CbResult.stop)) 0 none).cancelIssued) ∧
     (∀ es, (runPoll (countCb (fun _ => CbResult.stop))
          (transferStep (countCb (fun _ => CbResult.stop))
            (initPoll false 2 (countCb (fun _ => CbResult.stop)) 0 none) 0 none) es).calls =
        (transferStep (countCb (fun _ => CbResult.stop))
          (initPoll false 2 (countCb (fun _ => CbResult.stop)) 0 none) 0 none).calls) ∧
     (∀ es, (∀ ev ∈ es, ev.2 = none) →
       ∀ r, (runPoll (countCb (fun _ => CbResult.stop))
            (transferStep (countCb (fun _ => CbResult.stop))
              (initPoll false 2 (countCb (fun _ => CbResult.stop)) 0 none) 0 none)
            es).outcome = some r →
         r = Except.ok () ∧
         (runPoll (countCb (fun _ => CbResult.stop))
            (transferStep (countCb (fun _ => CbResult.stop))
              (initPoll false 2 (countCb (fun _ => CbResult.stop)) 0 none) 0 none)
            es).pending = [])) :=
  ⟨by decide, by decide, by decide, by decide, by decide,
    claim_C3 (countCb (fun _ => CbResult.stop))
      (initPoll false 2 (countCb (fun _ => CbResult.stop)) 0 none) 0 none 1
      (by decide) (by decide) (by decide) (by decide) (by decide)⟩

/-- Claim C7: after any device-level run, a `requestStop()` call only
sets the stop flag — it changes nothing else about the stream and
returns without waiting; thereafter the user callback is never consulted
again, and the very next completion that would invoke the callback
injects a stop signal instead and definitively settles the stream. -/
theorem claim_C7 (f : Nat → CbResult) (isOut : Bool) (count : Nat) (setupR : Option Err)
    (es1 : List DevEvent) :
    ∀ s1 s2, s1 = runDev f (streamPollInit isOut count f setupR) es1 →
      s2 = devStep f s1 DevEvent.stopRequest →
      (s2.pending = s1.pending ∧ s2.settled = s1.settled ∧ s2.outcome = s1.outcome ∧
        s2.calls = s1.calls ∧ s2.user = (true, s1.user.2)) ∧
      (∀ es2, (runDev f s2 es2).user.2 = s1.user.2) ∧
      (∀ t st, t ∈ s2.pending → s2.settled = false →
        (devStep f s2 (DevEvent.complete t st)).settled = true) := by
  intro s1 s2 h1 h2
  subst h2
  have hflag : (devStep f s1 DevEvent.stopRequest).user.1 = true := rfl
  refine ⟨⟨rfl, rfl, rfl, rfl, rfl⟩, ?_, ?_⟩
  · intro es2
    rw [runDev_user_of_flag f _ es2 hflag]
    rfl
  · intro t st ht hns
    have hInv2 : StateInv (devStep f s1 DevEvent.stopRequest) := by
      apply stateInv_devStep
      rw [h1]
      exact stateInv_runDev f _ es1 (stateInv_initPoll isOut count (streamCb f) (false, 0) setupR)
    exact devStep_settles_after_stop f _ t st hInv2.1 hflag ht hns

/-- Claim C7 witness: a receive stream with two pending transfers; the
stop request arrives after the first completion, and the next completion
settles the stream. -/
theorem claim_C7_witness :
    ((devStep (fun _ => CbResult.cont)
        (runDev (fun _ => CbResult.cont)
          (streamPollInit false 2 (fun _ => CbResult.cont) none) [DevEvent.complete 0 none])
        DevEvent.stopRequest).pending =
      (runDev (fun _ => CbResult.cont)
        (streamPollInit false 2 (fun _ => CbResult.cont) none)
        [DevEvent.complete 0 none]).pending ∧
     (devStep (fun _ => CbResult.cont)
        (runDev (fun _ => CbResult.cont)
          (streamPollInit false 2 (fun _ => CbResult.cont) none) [DevEvent.complete 0 none])
        DevEvent.stopRequest).settled =
      (runDev (fun _ => CbResult.cont)
        (streamPollInit false 2 (fun _ => CbResult.cont) none)
        [DevEvent.complete 0 none]).settled ∧
     (devStep (fun _ => CbResult.cont)
        (runDev (fun _ => CbResult.cont)
          (streamPollInit false 2 (fun _ => CbResult.cont) none) [DevEvent.complete 0 none])
        DevEvent.stopRequest).outcome =
      (runDev (fun _ => CbResult.cont)
        (streamPollInit false 2 (fun _ => CbResult.cont) none)
        [DevEvent.complete 0 none]).outcome ∧
     (devStep (fun _ => CbResult.cont)
        (runDev (fun _ => CbResult.cont)
          (streamPollInit false 2 (fun _ => CbResult.cont) none) [DevEvent.complete 0 none])
        DevEvent.stopRequest).calls =
      (runDev (fun _ => CbResult.cont)
        (streamPollInit false 2 (fun _ => CbResult.cont) none)
        [DevEvent.complete 0 none]).calls ∧
     (devStep (fun _ => CbResult.cont)
        (runDev (fun _ => CbResult.cont)
          (streamPollInit false 2 (fun _ => CbResult.cont) none) [DevEvent.complete 0 none])
        DevEvent.stopRequest).user =
      (true, (runDev (fun _ => CbResult.cont)
        (streamPollInit false 2 (fun _ => CbResult.cont) none)
        [DevEvent.complete 0 none]).user.2)) ∧
    (∀ es2, (runDev (fun _ => CbResult.cont)
        (devStep (fun _ => CbResult.cont)
          (runDev (fun _ => CbResult.cont)
            (streamPollInit false 2 (fun _ => CbResult.cont) none) [DevEvent.complete 0 none])
          DevEvent.stopRequest) es2).user.2 =
      (runDev (fun _ => CbResult.cont)
        (streamPollInit false 2 (fun _ => CbResult.cont) none)
        [DevEvent.complete 0 none]).user.2) ∧
    (∀ t st, t ∈ (devStep (fun _ => CbResult.cont)
        (runDev (fun _ => CbResult.cont)
          (streamPollInit false 2 (fun _ => CbResult.cont) none) [DevEvent.complete 0 none])
        DevEvent.stopRequest).pending →
      (devStep (fun _ => CbResult.cont)
        (runDev (fun _ => CbResult.cont)
          (streamPollInit false 2 (fun _ => CbResult.cont) none) [DevEvent.complete 0 none])
        DevEvent.stopRequest).settled = false →
      (devStep (fun _ => CbResult.cont)
        (devStep (fun _ => CbResult.cont)
          (runDev (fun _ => CbResult.cont)
            (streamPollInit false 2 (fun _ => CbResult.cont) none) [DevEvent.complete 0 none])
          DevEvent.stopRequest) (DevEvent.complete t st)).settled = true) :=
  claim_C7 (fun _ => CbResult.cont) false 2 none [DevEvent.complete 0 none]
    (runDev (fun _ => CbResult.cont) (streamPollInit false 2 (fun _ => CbResult.cont) none)
      [DevEvent.complete 0 none])
    (devStep (fun _ => CbResult.cont)
      (runDev (fun _ => CbResult.cont) (streamPollInit false 2 (fun _ => CbResult.cont) none)
        [DevEvent.complete 0 none]) DevEvent.stopRequest) rfl rfl

end Hackrf
